import Mathlib

/-!
# vmAllocSystem: a two-level page-table allocator (`vmAlloc.c`)

Shallow embedding of `src/vmAlloc.c` (with the types of `src/cpen212vm.h`).

The physical memory is the caller's buffer of `4096 * numPhys` bytes that starts at
host address `base`; it is modelled byte by byte, little endian, as on the LP64
targets the source is written for (pointers and `uintptr_t` are 8 bytes, which is
also what the 8-byte free-list link of the specification says).  The instance
state (`metadata`) is not a separate record: the source keeps it in frame 0 of the
very same buffer, so it is read from and written to the memory here as well.

Every access goes through a host pointer.  An access that is not inside
`[base, base + 4096 * numPhys)` has no defined behaviour in C; the embedding
returns `none` for it.
-/

namespace VmAlloc

/-! ## Types of `cpen212vm.h` -/

/-- The access being made (`access_type_t`). -/
inductive access_type_t where
  | VM_EXEC
  | VM_READ
  | VM_WRITE
  deriving DecidableEq, Repr

/-- The outcome of an operation (`vm_status_t`). -/
inductive vm_status_t where
  | VM_OK
  | VM_BAD_ADDR
  | VM_BAD_PERM
  | VM_DUPLICATE
  | VM_OUT_OF_MEM
  | VM_BAD_IO
  deriving DecidableEq, Repr

/-- The result of a translation (`vm_result_t`). -/
structure vm_result_t where
  status : vm_status_t
  addr : Nat
  deriving DecidableEq, Repr

open access_type_t vm_status_t

/-! ## Memory -/

/-- The physical memory of one VM instance: the caller's buffer. -/
structure VM where
  /-- host address of the buffer (`physmem`, which is also the handle `vm`) -/
  base : Nat
  /-- number of 4096-byte frames of the buffer -/
  numPhys : Nat
  /-- the bytes of the buffer, by physical offset -/
  mem : Nat → Nat

/-- Pointer arithmetic is done on 64-bit words. -/
def W64 : Nat := 2 ^ 64

/-- Arithmetic on `uint32_t`. -/
def W32 : Nat := 2 ^ 32

/-- The `w` bytes at host address `p` lie inside the buffer. -/
def inBounds (s : VM) (p w : Nat) : Prop :=
  s.base ≤ p ∧ p + w ≤ s.base + 4096 * s.numPhys

instance (s : VM) (p w : Nat) : Decidable (inBounds s p w) := by
  unfold inBounds; infer_instance

/-- Little-endian value of the `k` bytes from offset `a`. -/
def rd (m : Nat → Nat) (a : Nat) : Nat → Nat
  | 0 => 0
  | k + 1 => m a % 256 + 256 * rd m (a + 1) k

/-- Memory after the `k` bytes from offset `a` receive the little-endian bytes of `v`. -/
def wr (m : Nat → Nat) (a k v : Nat) : Nat → Nat :=
  fun x => bif Nat.ble a x && Nat.blt x (a + k) then v / 256 ^ (x - a) % 256 else m x

/-- The memory after `w` bytes at host address `p` receive the value `v`. -/
def upd (s : VM) (p w v : Nat) : VM :=
  { s with mem := wr s.mem (p - s.base) w v }

/-- Read of `w` bytes through host pointer `p`. -/
def load (s : VM) (p w : Nat) : Option Nat :=
  if inBounds s p w then some (rd s.mem (p - s.base) w) else none

/-- Write of `w` bytes through host pointer `p`. -/
def store (s : VM) (p w v : Nat) : Option VM :=
  if inBounds s p w then some (upd s p w v) else none

/-- Read of a `uint32_t` through host pointer `p`. -/
@[reducible] def load32 (s : VM) (p : Nat) : Option Nat := load s p 4

/-- Read of a pointer or `uintptr_t` through host pointer `p`. -/
@[reducible] def load64 (s : VM) (p : Nat) : Option Nat := load s p 8

/-- Write of a `uint32_t` through host pointer `p`. -/
@[reducible] def store32 (s : VM) (p v : Nat) : Option VM := store s p 4 v

/-- Write of a pointer or `uintptr_t` through host pointer `p`. -/
@[reducible] def store64 (s : VM) (p v : Nat) : Option VM := store s p 8 v

/-- The call `memset(p, 0, len)`: `len` bytes receive 0. -/
@[reducible] def memset0 (s : VM) (p len : Nat) : Option VM := store s p len 0

/-! ## The `metadata` record in frame 0

```
typedef struct {
    void*  vmStart;               //    0
    void* vmEnd;                  //    8
    void* firstPage;              //   16
    uint32_t numPages;            //   24
    FILE* swapFile;               //   32
    uint32_t numSwapPages;        //   40
    paddr_t asid[512];            //   44 .. 2092
    freePageNode* freePageHeader; // 2096
} metadata;                       // sizeof = 2104
```
-/

def off_vmStart : Nat := 0
def off_vmEnd : Nat := 8
def off_firstPage : Nat := 16
def off_numPages : Nat := 24
def off_swapFile : Nat := 32
def off_numSwapPages : Nat := 40
def off_asid : Nat := 44
def off_freePageHeader : Nat := 2096
def sizeof_metadata : Nat := 2104

/-- Read `metaData->vmStart`. -/
def get_vmStart (s : VM) : Option Nat := load64 s (s.base + off_vmStart)

/-- Read `metaData->freePageHeader`. -/
def get_freePageHeader (s : VM) : Option Nat := load64 s (s.base + off_freePageHeader)

/-- Write `metaData->freePageHeader`. -/
def set_freePageHeader (s : VM) (p : Nat) : Option VM := store64 s (s.base + off_freePageHeader) p

/-- Read `metaData->asid[a]`. -/
def get_asid (s : VM) (a : Nat) : Option Nat := load32 s (s.base + off_asid + 4 * a)

/-- Write `metaData->asid[a]`. -/
def set_asid (s : VM) (a v : Nat) : Option VM := store32 s (s.base + off_asid + 4 * a) v

/-! ## `vm_init` -/

/-- The loop of `vm_init` that threads the free list: `k` iterations from `page`;
returns the last `page`. -/
def initLoop : Nat → Nat → VM → Option (Nat × VM)
  | 0, page, s => some (page, s)
  | k + 1, page, s => do
      let next := (page + 4096) % W64
      let s ← store64 s page next
      let page ← load64 s page
      initLoop k page s

/-- The field assignments of `vm_init` (lines 46-58 of the source). -/
def initMetadata (s : VM) (physmem num_phys_pages num_swap_pages : Nat) : Option VM := do
  let s ← memset0 s physmem sizeof_metadata
  let s ← store64 s (physmem + off_vmStart) physmem
  let s ← store64 s (physmem + off_vmEnd) ((physmem + 4096 * num_phys_pages) % W64)
  let s ← store64 s (physmem + off_firstPage) ((physmem + 4096) % W64)
  let s ← store32 s (physmem + off_numPages) ((num_phys_pages - 1) % W32)
  let s ← store64 s (physmem + off_swapFile) 0
  let s ← store32 s (physmem + off_numSwapPages) (num_swap_pages % W32)
  store64 s (physmem + off_freePageHeader) ((physmem + 4096) % W64)

/-- The function `vm_init(physmem, num_phys_pages, swap, num_swap_pages)` on a buffer at host
address `physmem` with contents `mem0`.  The outer `Option` is `none` when the function
accesses memory outside the buffer; the inner one is the returned handle (`none` for `NULL`)
with the memory.  The argument `swap` is not used by the source. -/
def vm_init (physmem num_phys_pages : Nat) (mem0 : Nat → Nat) (_swap num_swap_pages : Nat) :
    Option (Option VM) :=
  let s : VM := { base := physmem, numPhys := num_phys_pages, mem := mem0 }
  if physmem = 0 then some none
  else if num_phys_pages = 0 then some none
  else do
    let s ← initMetadata s physmem num_phys_pages num_swap_pages
    -- for (i = 0; i < 512; i += 4096) asid[i] = 0 : the body runs for i = 0 only
    let s ← set_asid s 0 0
    let page ← get_freePageHeader s
    let (page, s) ← initLoop (num_phys_pages - 1 - 1) page s
    let s ← store64 s page 0
    some (some s)

/-! ## Address helpers -/

def getFirstLevel (addr : Nat) : Nat :=
  if addr = 0 then 0 else (addr >>> 22) &&& 0x3FF

def getSecondLevel (addr : Nat) : Nat :=
  if addr = 0 then 0 else (addr >>> 12) &&& 0x3FF

def getOffset (addr : Nat) : Nat :=
  if addr = 0 then 0 else addr &&& 0xFFF

/-! ## `vm_translate` -/

def vm_translate (s : VM) (pt addr : Nat) (access : access_type_t) (user : Bool) :
    Option vm_result_t := do
  let firstLevelPage := getFirstLevel addr
  let secondLevelPage := getSecondLevel addr
  let pageOffset := getOffset addr
  let vmStart ← get_vmStart s
  let firstLevelEntry := ((pt + firstLevelPage * 4) % W32 + vmStart) % W64
  let e1 ← load32 s firstLevelEntry
  if e1 &&& 0b1 = 0 then
    some ⟨VM_BAD_ADDR, 0⟩
  else do
    let vmStart ← get_vmStart s
    let secondLevelEntry := (vmStart + (e1 &&& 0xFFFFF000) + secondLevelPage * 4 % W32) % W64
    let e2 ← load32 s secondLevelEntry
    if e2 &&& 0b1 = 0 then
      some ⟨VM_BAD_ADDR, 0⟩
    else if user = true ∧ e2 &&& 0b100000 = 0 then
      some ⟨VM_BAD_PERM, 0⟩
    else
      let denied : Bool :=
        match access with
        | VM_EXEC => e2 &&& 0b10000 = 0
        | VM_READ => e2 &&& 0b100 = 0
        | VM_WRITE => e2 &&& 0b1000 = 0
      if denied then some ⟨VM_BAD_PERM, 0⟩
      else some ⟨VM_OK, ((e2 &&& 0xFFFFF000) + pageOffset) % W32⟩

/-! ## The free list -/

/-- The function `addFreeList(vm, address)`. -/
def addFreeList (s : VM) (address : Nat) : Option VM := do
  let header ← get_freePageHeader s
  let s ← store64 s address header
  set_freePageHeader s address

/-- The search loop of `removeFreeList`; `fuel` bounds the number of nodes visited
(a walk that exhausts it is on a cycle and never ends in the source). -/
def removeLoop : Nat → VM → Nat → Nat → Option VM
  | 0, _, _, _ => none
  | fuel + 1, s, page, address =>
      if page = 0 then some s
      else do
        let next ← load64 s page
        if next = address then do
          let n ← load64 s address
          let s ← store64 s page n
          store64 s address 0
        else removeLoop fuel s next address

/-- The function `removeFreeList(vm, address)`. -/
def removeFreeList (s : VM) (address : Nat) : Option VM :=
  if s.base = 0 then some s
  else do
    let header ← get_freePageHeader s
    if header = 0 then some s
    else if address = header then do
      let next ← load64 s address
      let s ← set_freePageHeader s next
      store64 s address 0
    else
      removeLoop (4096 * s.numPhys + 1) s header address

/-! ## `vm_new_addr_space` -/

def vm_new_addr_space (s : VM) (asid : Nat) : Option (vm_result_t × VM) :=
  if s.base = 0 then some (⟨VM_DUPLICATE, 0⟩, s)
  else do
    let a ← get_asid s asid
    if a ≠ 0 then some (⟨VM_DUPLICATE, 0⟩, s)
    else do
      let header ← get_freePageHeader s
      if header = 0 then some (⟨VM_OUT_OF_MEM, 0⟩, s)
      else do
        let freePage ← get_freePageHeader s
        let s ← removeFreeList s freePage
        let vmStart ← get_vmStart s
        let s ← set_asid s asid ((freePage + W64 - vmStart) % W64 % W32)
        let s ← memset0 s freePage 4096
        let vmStart ← get_vmStart s
        some (⟨VM_OK, (freePage + W64 - vmStart) % W64 % W32⟩, s)

/-! ## `vm_destroy_addr_space` -/

/-- The inner loop of `vm_destroy_addr_space` (lines 308-318): `k` entries of the second-level
page are left, from byte index `i`; every valid entry has its page zeroed and put on the
free list. -/
def destroyInner (secondLevelPage : Nat) : Nat → Nat → VM → Option VM
  | 0, _, s => some s
  | k + 1, i, s => do
      let e ← load32 s ((secondLevelPage + i) % W64)
      if e &&& 0b1 ≠ 0 then do
        let physicalPage := ((e &&& 0xFFFFF000) + s.base) % W64
        let s ← memset0 s physicalPage 4096
        let s ← addFreeList s physicalPage
        destroyInner secondLevelPage k (i + 4) s
      else destroyInner secondLevelPage k (i + 4) s

/-- The outer loop of `vm_destroy_addr_space` (lines 297-321): `k` entries of the top-level
page are left, from byte index `i`.  The status is `VM_BAD_IO` when the loop returns at
line 305 and `VM_OK` when it runs to its end. -/
def destroyOuter (topLevelPage : Nat) : Nat → Nat → VM → Option (vm_status_t × VM)
  | 0, _, s => some (VM_OK, s)
  | k + 1, i, s => do
      let e1 ← load32 s ((topLevelPage + i) % W64)
      if e1 &&& 0b1 ≠ 0 then
        let secondLevelPage := (s.base + (e1 &&& 0xFFFFF000)) % W64
        if secondLevelPage % 4096 ≠ 0 then some ( VM_BAD_IO, s)
        else do
          let s ← destroyInner secondLevelPage 1024 0 s
          let s ← addFreeList s secondLevelPage
          destroyOuter topLevelPage k (i + 4) s
      else destroyOuter topLevelPage k (i + 4) s

def vm_destroy_addr_space (s : VM) (asid : Nat) : Option (vm_status_t × VM) := do
  let a ← get_asid s asid
  if a = 0 then some (VM_BAD_ADDR, s)
  else do
    let a ← get_asid s asid
    let topLevelPage := (a + s.base) % W64
    if topLevelPage % 4096 ≠ 0 then some ( VM_BAD_IO, s)
    else do
      let r ← destroyOuter topLevelPage 1024 0 s
      if r.1 = VM_OK then do
        let s ← addFreeList r.2 topLevelPage
        let s ← set_asid s asid 0
        some (VM_OK, s)
      else some r

/-! ## `vm_map_page` -/

/-- Lines 355-370 of `vm_map_page`: when the first-level entry is not valid, take the head
of the free list as second-level table.  The inner `none` is the return of
`VM_OUT_OF_MEM` at line 359. -/
def mapWalk (s : VM) (firstLevelEntry e1 : Nat) : Option (Option VM) :=
  if e1 &&& 0b1 = 0 then do
    let header ← get_freePageHeader s
    if header = 0 then some none
    else do
      let newSecondLevelPage ← get_freePageHeader s
      let s ← removeFreeList s newSecondLevelPage
      let s ← memset0 s newSecondLevelPage 4096
      let s ← store32 s firstLevelEntry
        (((((newSecondLevelPage + W64 - s.base) % W64) <<< 12) % W64 &&& 0xFFFFF000) ||| 0b11)
      some (some s)
  else some (some s)

/-- Lines 387-391 of `vm_map_page`: the page-table entry for the new page. -/
def mapEntry (newPhysicalPage : Nat) (user exec write read : Bool) : Nat :=
  let pageTableEntry := ((newPhysicalPage &&& 0xFFFFF000) ||| 0b11) % W32
  let pageTableEntry := if user then pageTableEntry ||| 0b100000 else pageTableEntry
  let pageTableEntry := if exec then pageTableEntry ||| 0b10000 else pageTableEntry
  let pageTableEntry := if write then pageTableEntry ||| 0b1000 else pageTableEntry
  if read then pageTableEntry ||| 0b100 else pageTableEntry

/-- Lines 376-396 of `vm_map_page`, from the second-level entry on. -/
def mapInstall (s : VM) (secondLevelEntry : Nat) (user exec write read : Bool) :
    Option (vm_status_t × VM) := do
  let e2 ← load32 s secondLevelEntry
  if e2 &&& 0b1 ≠ 0 then some (VM_DUPLICATE, s)
  else do
    let header ← get_freePageHeader s
    if header = 0 then some (VM_OUT_OF_MEM, s)
    else do
      let newPhysicalPage ← get_freePageHeader s
      let s ← removeFreeList s newPhysicalPage
      let s ← store32 s secondLevelEntry (mapEntry newPhysicalPage user exec write read)
      some (VM_OK, s)

def vm_map_page (s : VM) (pt addr : Nat) (user exec write read : Bool) :
    Option (vm_status_t × VM) := do
  let firstLevelIndex := getFirstLevel addr
  let secondLevelIndex := getSecondLevel addr
  let vmStart ← get_vmStart s
  let firstLevelEntry := ((pt + firstLevelIndex * 4) % W32 + vmStart) % W64
  let e1 ← load32 s firstLevelEntry
  match ← mapWalk s firstLevelEntry e1 with
  | none => some (VM_OUT_OF_MEM, s)
  | some s => do
    let vmStart ← get_vmStart s
    let e1 ← load32 s firstLevelEntry
    let secondLevelEntry := (vmStart + (e1 >>> 12) + secondLevelIndex * 4 % W32) % W64
    mapInstall s secondLevelEntry user exec write read

/-! ## `vm_unmap_page` -/

/-- The scan `for (i = 0; i < 4096; i += 4) if (*(uint32_t*)(p + i) & 1) return VM_OK;`:
`k` entries left, from byte index `i`; `some true` when a present entry is found. -/
def scanPresent (s : VM) (p : Nat) : Nat → Nat → Option Bool
  | 0, _ => some false
  | k + 1, i => do
      let e ← load32 s ((p + i) % W64)
      if e &&& 0b1 ≠ 0 then some true else scanPresent s p k (i + 4)

/-- Lines 453-469 of `vm_unmap_page`: release the second-level table, then the first-level
table when no entry of it is valid. -/
def unmapTables (s : VM) (pt secondLevelPage : Nat) : Option (vm_status_t × VM) := do
  let vm := s.base
  let s ← memset0 s secondLevelPage 4096
  let s ← addFreeList s secondLevelPage
  if ← scanPresent s ((pt + vm) % W64) 1024 0 then some (VM_OK, s)
  else do
    let s ← memset0 s ((pt + vm) % W64) 4096
    let s ← addFreeList s ((pt + vm) % W64)
    some (VM_OK, s)

/-- Lines 435-451 of `vm_unmap_page`: release the page and clear its entry. -/
def unmapPage (s : VM) (pt secondLevelPage secondLevelEntry e2 : Nat) :
    Option (vm_status_t × VM) := do
  let vm := s.base
  let physicalPage := (vm + (e2 &&& 0xFFFFF000)) % W64
  let s ← memset0 s physicalPage 4096
  let s ← addFreeList s physicalPage
  let s ← store32 s secondLevelEntry 0
  if ← scanPresent s ((vm + secondLevelPage) % W64) 1024 0 then some (VM_OK, s)
  else unmapTables s pt secondLevelPage

def vm_unmap_page (s : VM) (pt addr : Nat) : Option (vm_status_t × VM) := do
  let vm := s.base
  let firstLevel := getFirstLevel addr
  let secondLevel := getSecondLevel addr
  let firstLevelEntry := ((vm + pt) % W64 + firstLevel * 4 % W32) % W64
  let e1 ← load32 s firstLevelEntry
  if e1 &&& 0b1 = 0 then some (VM_BAD_ADDR, s)
  else do
    let secondLevelPage := (vm + (e1 &&& 0xFFFFF000)) % W64
    let secondLevelEntry := (secondLevelPage + secondLevel) % W64
    let e2 ← load32 s secondLevelEntry
    if e2 &&& 0b1 = 0 then some (VM_BAD_ADDR, s)
    else unmapPage s pt secondLevelPage secondLevelEntry e2

/-! ## Observations on a state: the free list and the reachable frames

These are not functions of the source; they read off a memory what the properties speak
about. -/

/-- The nodes of the free list (host pointers), following the link in the first 8 bytes of
each node from `page`; `none` when a link cannot be read or `fuel` nodes do not reach the
end. -/
def freeListFrom (s : VM) : Nat → Nat → Option (List Nat)
  | 0, _ => none
  | fuel + 1, page =>
      if page = 0 then some []
      else do
        let next ← load64 s page
        let rest ← freeListFrom s fuel next
        some (page :: rest)

/-- The free list from the head pointer in the metadata. -/
def freeList (s : VM) : Option (List Nat) := do
  let header ← get_freePageHeader s
  freeListFrom s (s.numPhys + 1) header

/-- The addresses in bits 12-31 of the present entries (bit 0 set) among the 1024 entries of
the table at physical address `t`, in index order; an entry outside the buffer names
nothing. -/
def presentEntries (s : VM) (t : Nat) : List Nat :=
  (List.range 1024).filterMap fun i =>
    match load32 s (s.base + t + 4 * i) with
    | some e => if e &&& 0b1 ≠ 0 then some (e &&& 0xFFFFF000) else none
    | none => none

/-- The frames reachable from the first-level table `pt`: the table itself, each second-level
table named by a present first-level entry, each data frame named by a present entry of
such a table. -/
def reachableFrom (s : VM) (pt : Nat) : List Nat :=
  pt :: ((presentEntries s pt).map fun t => t :: presentEntries s t).flatten

/-- The first-level tables of the active address spaces. -/
def activeTables (s : VM) : List Nat :=
  (List.range 512).filterMap fun a =>
    match get_asid s a with
    | some p => if p ≠ 0 then some p else none
    | none => none

/-- The frames reachable from the first-level tables of the active address spaces. -/
def reachableFrames (s : VM) : List Nat :=
  ((activeTables s).map (reachableFrom s)).flatten

/-! ## Scenario S1

`vm_init` with 8 frames and no swap, `vm_new_addr_space(0)`, then
`vm_map_page(pt, 0x00403000, user, !exec, write, read)`. -/

/-- A host address for the buffer. -/
def hostBase : Nat := 0x7f0012340000

/-- Scenario S1 after `vm_init`. -/
def s1_init : Option VM := (vm_init hostBase 8 (fun _ => 0) 0 0).bind id

/-- Scenario S1 after `vm_new_addr_space(0)`. -/
def s1_space : Option (vm_result_t × VM) := s1_init.bind fun s => vm_new_addr_space s 0

/-- Scenario S1 after `vm_map_page(pt, 0x00403000, true, false, true, true)`. -/
def s1_map : Option (vm_status_t × VM) :=
  s1_space.bind fun r => vm_map_page r.2 r.1.addr 0x00403000 true false true true

/-! ## Scenario with one free frame

`vm_init` with 4 frames, `vm_new_addr_space(0)`, `vm_new_addr_space(1)`: one frame is left on
the free list; then `vm_map_page(0x1000, 0x00403000, ...)`. -/

/-- The 4-frame instance after the two address spaces are created. -/
def s9_spaces : Option VM :=
  ((vm_init hostBase 4 (fun _ => 0) 0 0).bind id).bind fun s =>
    (vm_new_addr_space s 0).bind fun r => (vm_new_addr_space r.2 1).map fun q => q.2

/-- The mapping attempted with one free frame. -/
def s9_map : Option (vm_status_t × VM) :=
  s9_spaces.bind fun s => vm_map_page s 0x1000 0x00403000 true false true true

/-- The memory that the attempt of `s9_map` leaves. -/
def s9_state : VM := (s9_map.map fun r => r.2).getD ⟨0, 0, fun _ => 0⟩

/-! ## A translatable memory

A buffer of 8 frames in which `vmStart` is set, entry 1 of the first-level table at `0x1000`
names the table at `0x2000` with its present bit, and entry 3 of that table is `0x302F`
(frame `0x3000`, user, write, read, allocated, present). -/

/-- A memory with one mapped page, as `vm_translate` expects it. -/
def mappedState : VM :=
  { base := hostBase
    numPhys := 8
    mem := wr (wr (wr (fun _ => 0) 0 8 hostBase) 0x1004 4 0x2001) 0x200C 4 0x302F }

/-! ## States after the calls

The memories that the calls leave, written as the writes they make, for the proofs. -/

/-- The memory after the field assignments of `vm_init` and `asid[0] = 0`. -/
def metaState (b n nsw : Nat) (mem0 : Nat → Nat) : VM :=
  upd (upd (upd (upd (upd (upd (upd (upd (upd ⟨b, n, mem0⟩ b sizeof_metadata 0)
    (b + off_vmStart) 8 b) (b + off_vmEnd) 8 ((b + 4096 * n) % W64))
    (b + off_firstPage) 8 ((b + 4096) % W64)) (b + off_numPages) 4 ((n - 1) % W32))
    (b + off_swapFile) 8 0) (b + off_numSwapPages) 4 (nsw % W32))
    (b + off_freePageHeader) 8 ((b + 4096) % W64)) (b + off_asid + 4 * 0) 4 0

/-- The state that a successful `vm_new_addr_space(asid)` leaves, when the head of the free
list is the frame at physical address `t` and its link is `nx`. -/
def newSpaceState (s : VM) (asid t nx : Nat) : VM :=
  upd (upd (upd (upd s (s.base + off_freePageHeader) 8 nx) (s.base + t) 8 0)
    (s.base + off_asid + 4 * asid) 4 t) (s.base + t) 4096 0

/-- The state after the walk of `vm_map_page` took the head `h` of the free list (link `nx`)
as table for the first-level entry at host pointer `fle`. -/
def walkState (s : VM) (fle h nx : Nat) : VM :=
  upd (upd (upd (upd s (s.base + off_freePageHeader) 8 nx) h 8 0) h 4096 0) fle 4
    (((((h + W64 - s.base) % W64) <<< 12) % W64 &&& 0xFFFFF000) ||| 0b11)

/-- The state after the end of `vm_map_page` took the head `h` of the free list (link `nx`)
and wrote `pte` to the second-level entry at host pointer `sle`. -/
def installState (s : VM) (sle h nx pte : Nat) : VM :=
  upd (upd (upd s (s.base + off_freePageHeader) 8 nx) h 8 0) sle 4 pte

/-- The state after `vm_init` with `n` frames and `vm_new_addr_space(a)` for `a = 0 .. k - 1`,
as far as later calls read it: the metadata, the links of the frames still free, the
address-space entries still unused, and entry 0 of the first table. -/
def Spawned (n k : Nat) (s : VM) : Prop :=
  s.base ≠ 0 ∧ s.numPhys = n ∧ n ≤ 1048576 ∧ s.base + 4096 * n ≤ 2 ^ 64 ∧
  get_vmStart s = some s.base ∧
  get_freePageHeader s = some (s.base + 4096 * (k + 1)) ∧
  (∀ j, k + 1 ≤ j → j + 1 < n → load64 s (s.base + 4096 * j) = some (s.base + 4096 * (j + 1))) ∧
  load64 s (s.base + 4096 * (n - 1)) = some 0 ∧
  (∀ a, k ≤ a → a < 512 → get_asid s a = some 0) ∧
  (1 ≤ k → load32 s (s.base + 4096) = some 0)

/-- The calls `vm_new_addr_space(vm, a)` for `a = 0, ..., k - 1` in turn. -/
def spawn : Nat → VM → Option VM
  | 0, s => some s
  | k + 1, s => (spawn k s).bind fun s => (vm_new_addr_space s k).map fun r => r.2

/-! ## Scenario with 258 frames

`vm_init` with 258 frames, `vm_new_addr_space(a)` for `a = 0 .. 254` (frames 1 to 255 become
first-level tables), then `vm_map_page(0x1000, 0, user, !exec, write, read)`. -/

/-- The 258-frame instance after the 255 address spaces are created. -/
def s8_spaces : Option VM :=
  ((vm_init hostBase 258 (fun _ => 0) 0 0).bind id).bind (spawn 255)

/-- The first mapping of page 0 in address space 0. -/
def s8_map : Option (vm_status_t × VM) :=
  s8_spaces.bind fun s => vm_map_page s 0x1000 0 true false true true

/-! ## Memories for `vm_unmap_page`

Buffers of 32 frames at the low host address `0x10000`, in which `vmStart` is set and entry 1
of the first-level table at `0x1000` names the table at `0x2000` with its present bit.  In
`entryOneState` only entry 1 of that table is mapped, in `entryZeroState` only entry 0 (both
`0x302F`: frame `0x3000`, user, write, read, allocated, present). -/

/-- A low host address: with it the pointers `vm + vm + ...` that `vm_unmap_page` forms stay
inside a buffer of 32 frames. -/
def lowBase : Nat := 0x10000

/-- A second-level table in which only entry 1 is mapped. -/
def entryOneState : VM :=
  { base := lowBase
    numPhys := 32
    mem := wr (wr (wr (fun _ => 0) 0 8 lowBase) 0x1004 4 0x2001) 0x2004 4 0x302F }

/-- A second-level table in which only entry 0 is mapped. -/
def entryZeroState : VM :=
  { base := lowBase
    numPhys := 32
    mem := wr (wr (wr (fun _ => 0) 0 8 lowBase) 0x1004 4 0x2001) 0x2000 4 0x302F }

/-! ## Scenario S5

`vm_init` with 4 frames, a swap handle and 4 swap pages, `vm_new_addr_space(0)`,
`vm_map_page(pt, 0x00000000, ...)`, then `vm_map_page(pt, 0x00001000, ...)`. -/

/-- Scenario S5 after the first mapping. -/
def s5_first : Option (vm_status_t × VM) :=
  ((vm_init hostBase 4 (fun _ => 0) 0x55550000 4).bind id).bind fun s =>
    (vm_new_addr_space s 0).bind fun r => vm_map_page r.2 r.1.addr 0 true false true true

/-- Scenario S5: the second mapping. -/
def s5_second : Option (vm_status_t × VM) :=
  s5_first.bind fun r => vm_map_page r.2 0x1000 0x00001000 true false true true

/-- The memory of scenario S1 after `vm_init`. -/
def s1_state : VM := s1_init.getD ⟨0, 0, fun _ => 0⟩

/-! ## The memory after `vm_init`, in closed form -/

/-- The byte at offset `x` of the link that `vm_init` leaves in the first 8 bytes of frame
`x / 4096`: the host address of the next frame, and `NULL` in the last frame. -/
def linkByte (b n x : Nat) : Nat :=
  (if x / 4096 + 1 < n then b + 4096 * (x / 4096 + 1) else 0) / 256 ^ (x % 4096) % 256

/-- The bytes after `vm_init`: the links in frames 1 to `n - 1`, the metadata in frame 0,
and the initial content elsewhere. -/
def initMem (b n nsw : Nat) (mem0 : Nat → Nat) : Nat → Nat :=
  fun x =>
    bif Nat.ble 4096 x && Nat.blt x (4096 * n) && Nat.blt (x % 4096) 8 then linkByte b n x
    else (metaState b n nsw mem0).mem x

/-- The state after `vm_init`. -/
def initState (b n nsw : Nat) (mem0 : Nat → Nat) : VM :=
  { base := b, numPhys := n, mem := initMem b n nsw mem0 }

/-! ## Scenario with 16400 frames

`vm_init` with 16400 frames at host address `0x7f0512340000`, `vm_new_addr_space(0)`,
`vm_map_page(pt, 0x00000000, ...)` and `vm_map_page(pt, 0x00400000, ...)`. -/

/-- A host address whose upper half is `0x7f05`. -/
def highBase : Nat := 0x7f0512340000

/-- The 16400-frame instance after the two mappings. -/
def s19_map : Option (vm_status_t × VM) :=
  ((vm_init highBase 16400 (fun _ => 0) 0 0).bind id).bind fun s =>
    (vm_new_addr_space s 0).bind fun r =>
      (vm_map_page r.2 r.1.addr 0 true false true true).bind fun q =>
        vm_map_page q.2 0x1000 0x00400000 true false true true

/-! ## Scenario with 65554 frames

`vm_init` with 65554 frames at host address `0x0E010000`, `vm_new_addr_space(0)`,
`vm_map_page(pt, 0x00002000, ...)`, then `vm_unmap_page(pt, 0x00002000)`. -/

/-- A host address below the size of the buffer. -/
def midBase : Nat := 0x0E010000

/-- The 65554-frame instance after the mapping. -/
def s13_map : Option (vm_status_t × VM) :=
  ((vm_init midBase 65554 (fun _ => 0) 0 0).bind id).bind fun s =>
    (vm_new_addr_space s 0).bind fun r => vm_map_page r.2 r.1.addr 0x2000 true false true true

/-- The 65554-frame instance after the page is unmapped again. -/
def s13_unmap : Option (vm_status_t × VM) :=
  s13_map.bind fun r => vm_unmap_page r.2 0x1000 0x2000

/-! ## Scenario on a buffer that is not zero-filled

`vm_init` with 8 frames at host address `0x7f0000000000` on a buffer whose bytes are all
`0xAA`, `vm_new_addr_space(0)`, then `vm_map_page(pt, 0x00000000, ...)`. -/

/-- A host address that is a multiple of `2 ^ 32`: the low 32 bits of a host pointer into
the buffer are its physical address. -/
def wideBase : Nat := 0x7f0000000000

/-- The 8-frame instance on a buffer filled with the byte `0xAA`, after
`vm_new_addr_space(0)` and `vm_map_page(pt, 0x00000000, user, !exec, write, read)`. -/
def s21_map : Option (vm_status_t × VM) :=
  ((vm_init wideBase 8 (fun _ => 0xAA) 0 0).bind id).bind fun s =>
    (vm_new_addr_space s 0).bind fun r => vm_map_page r.2 r.1.addr 0 true false true true

/-! ## Create and destroy -/

/-- The state after `vm_new_addr_space(asid)` took the head of the free list, the frame at
physical address `t` with link `nx`, and `vm_destroy_addr_space(asid)` released it again. -/
def roundTripState (s : VM) (asid t nx : Nat) : VM :=
  upd (upd (upd (newSpaceState s asid t nx) (s.base + t) 8 nx)
    (s.base + off_freePageHeader) 8 (s.base + t)) (s.base + off_asid + 4 * asid) 4 0

/-! ## Lemmas on words and bit masks -/

theorem rd_lt (m : Nat → Nat) (k a : Nat) : rd m a k < 256 ^ k := by
  induction k generalizing a with
  | zero => simp [rd]
  | succ k ih =>
    have h1 := ih (a + 1)
    have h2 : m a % 256 < 256 := Nat.mod_lt _ (by decide)
    simp only [rd, pow_succ]
    omega

theorem load_lt {s : VM} {p w e : Nat} (h : load s p w = some e) : e < 256 ^ w := by
  unfold load at h
  split at h
  · have := rd_lt s.mem w (p - s.base)
    simp only [Option.some.injEq] at h
    omega
  · exact absurd h (by simp)

theorem load32_lt {s : VM} {p e : Nat} (h : load32 s p = some e) : e < 2 ^ 32 :=
  load_lt h

theorem load_inBounds {s : VM} {p w e : Nat} (h : load s p w = some e) : inBounds s p w := by
  unfold load at h
  split at h
  · assumption
  · exact absurd h (by simp)

theorem load32_inBounds {s : VM} {p e : Nat} (h : load32 s p = some e) : inBounds s p 4 :=
  load_inBounds h

/-- The mask `0xFFFFF000` keeps the multiple of 4096 below a 32-bit word. -/
theorem and_frame_mask (x : Nat) (hx : x < 2 ^ 32) : x &&& 0xFFFFF000 = 4096 * (x / 4096) := by
  have hm : (0xFFFFF000 : Nat) = (2 ^ 20 - 1) <<< 12 := by decide
  have hr : 4096 * (x / 4096) = (x >>> 12) <<< 12 := by
    rw [Nat.shiftLeft_eq, Nat.shiftRight_eq_div_pow]; norm_num; ring
  rw [hm, hr]
  apply Nat.eq_of_testBit_eq
  intro i
  simp only [Nat.testBit_and, Nat.testBit_shiftLeft, Nat.testBit_two_pow_sub_one,
    Nat.testBit_shiftRight]
  by_cases h12 : 12 ≤ i
  · by_cases h32 : i < 32
    · have e1 : 12 + (i - 12) = i := by omega
      have e2 : i - 12 < 20 := by omega
      simp [h12, e1, e2]
    · have hlt : x < 2 ^ i := lt_of_lt_of_le hx (Nat.pow_le_pow_right (by decide) (by omega))
      have e1 : 12 + (i - 12) = i := by omega
      simp [Nat.testBit_lt_two_pow hlt, e1]
  · simp [h12]

theorem and_offset_mask (x : Nat) : x &&& 0xFFF = x % 4096 := by
  have := Nat.and_pow_two_sub_one_eq_mod x 12
  simpa using this

theorem and_index_mask_lt (x : Nat) : x &&& 0x3FF < 1024 := by
  have := Nat.and_pow_two_sub_one_eq_mod x 10
  have h : x &&& 0x3FF = x % 1024 := by simpa using this
  rw [h]; exact Nat.mod_lt _ (by decide)

theorem frame_add_eq_or (k p : Nat) (hp : p < 4096) : 4096 * k + p = 4096 * k ||| p := by
  have := Nat.mul_add_lt_is_or (i := 12) (b := p) (by simpa using hp) k
  simpa using this

theorem getFirstLevel_eq (v : Nat) : getFirstLevel v = (v >>> 22) &&& 0x3FF := by
  unfold getFirstLevel; split
  · subst v; simp
  · rfl

theorem getSecondLevel_eq (v : Nat) : getSecondLevel v = (v >>> 12) &&& 0x3FF := by
  unfold getSecondLevel; split
  · subst v; simp
  · rfl

theorem getOffset_eq (v : Nat) : getOffset v = v &&& 0xFFF := by
  unfold getOffset; split
  · subst v; simp
  · rfl

/-! ## Reads after writes -/

theorem wr_apply (m : Nat → Nat) (a k v x : Nat) :
    wr m a k v x = if a ≤ x ∧ x < a + k then v / 256 ^ (x - a) % 256 else m x := by
  unfold wr
  by_cases h : a ≤ x ∧ x < a + k
  · have h1 : Nat.ble a x = true := Nat.ble_eq.mpr h.1
    have h2 : Nat.blt x (a + k) = true := Nat.blt_eq.mpr h.2
    rw [if_pos h, h1, h2]
    rfl
  · rw [if_neg h]
    by_cases h1 : a ≤ x
    · have h2 : Nat.blt x (a + k) = false := by
        cases hb : Nat.blt x (a + k) with
        | false => rfl
        | true => exact absurd ⟨h1, Nat.blt_eq.mp hb⟩ h
      rw [h2, Bool.and_false]
      rfl
    · have h2 : Nat.ble a x = false := by
        cases hb : Nat.ble a x with
        | false => rfl
        | true => exact absurd (Nat.ble_eq.mp hb) h1
      rw [h2, Bool.false_and]
      rfl

theorem wr_other (m : Nat → Nat) (a k v x : Nat) (h : x < a ∨ a + k ≤ x) :
    wr m a k v x = m x := by
  rw [wr_apply, if_neg (by omega)]

theorem wr_inside (m : Nat → Nat) (a k v x : Nat) (h1 : a ≤ x) (h2 : x < a + k) :
    wr m a k v x = v / 256 ^ (x - a) % 256 := by
  rw [wr_apply, if_pos ⟨h1, h2⟩]

theorem rd_congr (m m' : Nat → Nat) (k a : Nat)
    (h : ∀ x, a ≤ x → x < a + k → m x = m' x) : rd m a k = rd m' a k := by
  induction k generalizing a with
  | zero => rfl
  | succ k ih =>
    simp only [rd]
    rw [h a (le_refl a) (by omega), ih (a + 1) (fun x h1 h2 => h x (by omega) (by omega))]

theorem rd_wr_other (m : Nat → Nat) (a k v b j : Nat) (h : b + j ≤ a ∨ a + k ≤ b) :
    rd (wr m a k v) b j = rd m b j :=
  rd_congr _ _ j b (fun x h1 h2 => wr_other m a k v x (by omega))

theorem rd_wr_same (m : Nat → Nat) (k a v : Nat) : rd (wr m a k v) a k = v % 256 ^ k := by
  induction k generalizing a v with
  | zero => simp [rd, Nat.mod_one]
  | succ k ih =>
    have hrest : rd (wr m a (k + 1) v) (a + 1) k = rd (wr m (a + 1) k (v / 256)) (a + 1) k := by
      apply rd_congr
      intro x h1 h2
      rw [wr_inside m a (k + 1) v x (by omega) (by omega),
        wr_inside m (a + 1) k (v / 256) x h1 h2]
      have hx : x - a = (x - (a + 1)) + 1 := by omega
      rw [hx, pow_succ, Nat.mul_comm, Nat.div_div_eq_div_mul]
    have hfirst : wr m a (k + 1) v a = v % 256 := by
      rw [wr_inside m a (k + 1) v a (le_refl a) (by omega)]
      simp
    simp only [rd]
    rw [hfirst, hrest, ih, pow_succ, Nat.mul_comm (256 ^ k) 256, Nat.mod_mul]
    simp

theorem rd_wr_zero_inside (m : Nat → Nat) (a k b j : Nat) (h1 : a ≤ b) (h2 : b + j ≤ a + k) :
    rd (wr m a k 0) b j = 0 := by
  have h : rd (wr m a k 0) b j = rd (fun _ => 0) b j := by
    apply rd_congr
    intro x hx1 hx2
    rw [wr_inside m a k 0 x (by omega) (by omega)]
    simp
  rw [h]
  clear h h1 h2
  induction j generalizing b with
  | zero => rfl
  | succ j ih => simp [rd, ih]

@[simp] theorem upd_base (s : VM) (p w v : Nat) : (upd s p w v).base = s.base := rfl

@[simp] theorem upd_numPhys (s : VM) (p w v : Nat) : (upd s p w v).numPhys = s.numPhys := rfl

theorem store_eq {s : VM} {p w : Nat} (v : Nat) (hin : inBounds s p w) :
    store s p w v = some (upd s p w v) := by
  unfold store
  rw [if_pos hin]

theorem load_upd_other (s : VM) (p w v q j : Nat) (hp : s.base ≤ p)
    (h : q + j ≤ p ∨ p + w ≤ q) : load (upd s p w v) q j = load s q j := by
  unfold load
  by_cases hin : inBounds s q j
  · have hin' : inBounds (upd s p w v) q j := hin
    rw [if_pos hin, if_pos hin']
    congr 1
    have hq : s.base ≤ q := hin.1
    exact rd_wr_other s.mem (p - s.base) w v (q - s.base) j (by omega)
  · have hin' : ¬ inBounds (upd s p w v) q j := hin
    rw [if_neg hin, if_neg hin']

theorem load_upd_same (s : VM) (p w v : Nat) (hin : inBounds s p w) :
    load (upd s p w v) p w = some (v % 256 ^ w) := by
  unfold load
  have hin' : inBounds (upd s p w v) p w := hin
  rw [if_pos hin']
  congr 1
  exact rd_wr_same s.mem w (p - s.base) v

theorem load_upd_zero_inside (s : VM) (p w q j : Nat) (hp : s.base ≤ p)
    (hin : inBounds s q j) (h1 : p ≤ q) (h2 : q + j ≤ p + w) :
    load (upd s p w 0) q j = some 0 := by
  unfold load
  have hin' : inBounds (upd s p w 0) q j := hin
  rw [if_pos hin']
  congr 1
  exact rd_wr_zero_inside s.mem (p - s.base) w (q - s.base) j (by omega) (by omega)

/-! ## The walk of `vm_translate` -/

/-- Host pointer of the first-level entry as `vm_translate` and `vm_map_page` compute it,
when the entry at physical address `pt + 4 * l1_index(v)` lies inside the buffer. -/
theorem firstLevelEntry_ptr (s : VM) (pt v : Nat) (hn : s.numPhys ≤ 1048576)
    (hb : s.base + 4096 * s.numPhys ≤ 2 ^ 64)
    (hin : inBounds s (s.base + (pt + 4 * ((v >>> 22) &&& 0x3FF))) 4) :
    ((pt + getFirstLevel v * 4) % W32 + s.base) % W64
      = s.base + (pt + 4 * ((v >>> 22) &&& 0x3FF)) := by
  unfold inBounds at hin
  rw [getFirstLevel_eq]
  simp only [W32, W64]
  have h1 : pt + (v >>> 22 &&& 0x3FF) * 4 < 2 ^ 32 := by omega
  rw [Nat.mod_eq_of_lt h1, Nat.mod_eq_of_lt (by omega)]
  omega

/-- Host pointer of the second-level entry as `vm_translate` computes it. -/
theorem secondLevelEntry_ptr (s : VM) (E1 v : Nat) (hb : s.base + 4096 * s.numPhys ≤ 2 ^ 64)
    (hin : inBounds s (s.base + ((E1 &&& 0xFFFFF000) + 4 * ((v >>> 12) &&& 0x3FF))) 4) :
    (s.base + (E1 &&& 0xFFFFF000) + getSecondLevel v * 4 % W32) % W64
      = s.base + ((E1 &&& 0xFFFFF000) + 4 * ((v >>> 12) &&& 0x3FF)) := by
  unfold inBounds at hin
  rw [getSecondLevel_eq]
  have hi := and_index_mask_lt (v >>> 12)
  simp only [W32, W64]
  rw [Nat.mod_eq_of_lt (a := (v >>> 12 &&& 0x3FF) * 4) (by omega), Nat.mod_eq_of_lt (by omega)]
  omega

/-- The result of `vm_translate` once both entries are read. -/
theorem vm_translate_walk (s : VM) (pt v E1 : Nat) (access : access_type_t) (user : Bool)
    (hn : s.numPhys ≤ 1048576) (hb : s.base + 4096 * s.numPhys ≤ 2 ^ 64)
    (hstart : get_vmStart s = some s.base)
    (h1 : load32 s (s.base + (pt + 4 * ((v >>> 22) &&& 0x3FF))) = some E1) :
    vm_translate s pt v access user =
      if E1 &&& 1 = 0 then some ⟨VM_BAD_ADDR, 0⟩
      else
        (load32 s ((s.base + (E1 &&& 0xFFFFF000) + getSecondLevel v * 4 % W32) % W64)).bind
          fun e =>
            if e &&& 1 = 0 then some ⟨VM_BAD_ADDR, 0⟩
            else if user = true ∧ e &&& 0x20 = 0 then some ⟨VM_BAD_PERM, 0⟩
            else if (match access with
                | VM_EXEC => e &&& 0x10
                | VM_READ => e &&& 0x4
                | VM_WRITE => e &&& 0x8) = 0 then some ⟨VM_BAD_PERM, 0⟩
            else some ⟨VM_OK, ((e &&& 0xFFFFF000) + getOffset v) % W32⟩ := by
  have hp := firstLevelEntry_ptr s pt v hn hb (load32_inBounds h1)
  unfold vm_translate
  simp only [hstart, Option.bind_eq_bind, Option.some_bind, hp, h1]
  split
  · rfl
  · congr 1
    funext e
    cases access <;> simp

/-! ## `vm_map_page` that runs out of memory -/

theorem mapInstall_out_of_mem (s : VM) (p : Nat) (user exec write read : Bool)
    (h : (mapInstall s p user exec write read).map (fun q => q.1) = some VM_OUT_OF_MEM) :
    mapInstall s p user exec write read = some (VM_OUT_OF_MEM, s) := by
  unfold mapInstall at h ⊢
  cases h2 : load32 s p with
  | none => rw [h2] at h; exact absurd h (by simp)
  | some e2 =>
    simp only [h2, Option.bind_eq_bind, Option.some_bind] at h ⊢
    by_cases hd : e2 &&& 1 ≠ 0
    · rw [if_pos hd] at h
      exact absurd h (by simp)
    · rw [if_neg hd] at h ⊢
      cases hh : get_freePageHeader s with
      | none => rw [hh] at h; exact absurd h (by simp)
      | some header =>
        simp only [hh, Option.some_bind] at h ⊢
        by_cases hz : header = 0
        · rw [if_pos hz]
        · rw [if_neg hz] at h
          cases hr : removeFreeList s header with
          | none => rw [hr] at h; exact absurd h (by simp)
          | some s2 =>
            simp only [hr, Option.some_bind] at h
            cases hs : store32 s2 p (mapEntry header user exec write read) with
            | none => rw [hs] at h; exact absurd h (by simp)
            | some s3 => rw [hs] at h; exact absurd h (by simp)

/-! ## The effect of `vm_new_addr_space` -/

@[simp] theorem inBounds_upd (s : VM) (p w v q j : Nat) :
    inBounds (upd s p w v) q j = inBounds s q j := rfl

/-- The head `h` of the free list is taken off by `removeFreeList(vm, h)`. -/
theorem removeFreeList_head (s : VM) (h nx : Nat) (hb : s.base ≠ 0)
    (hh : get_freePageHeader s = some h) (h0 : h ≠ 0) (hnx : load64 s h = some nx) :
    removeFreeList s h
      = some (upd (upd s (s.base + off_freePageHeader) 8 nx) h 8 0) := by
  have hin1 : inBounds s (s.base + off_freePageHeader) 8 := load_inBounds hh
  have hin2 : inBounds s h 8 := load_inBounds hnx
  unfold removeFreeList
  rw [if_neg hb, hh]
  simp only [Option.bind_eq_bind, Option.some_bind]
  rw [if_neg h0, if_pos trivial, hnx]
  simp only [Option.some_bind, set_freePageHeader, store64]
  rw [store_eq nx hin1]
  simp only [Option.some_bind]
  rw [store_eq 0 (by simpa using hin2)]

theorem vm_new_addr_space_ok (s : VM) (asid t nx : Nat) (hb : s.base ≠ 0)
    (hn : s.numPhys ≤ 1048576) (hw : s.base + 4096 * s.numPhys ≤ 2 ^ 64)
    (hstart : get_vmStart s = some s.base) (ha : asid < 512)
    (hasid : get_asid s asid = some 0)
    (hh : get_freePageHeader s = some (s.base + t)) (ht : 4096 ≤ t)
    (htn : t + 4096 ≤ 4096 * s.numPhys)
    (hnx : load64 s (s.base + t) = some nx) :
    vm_new_addr_space s asid = some (⟨VM_OK, t⟩, newSpaceState s asid t nx) := by
  have hin0 : inBounds s (s.base + off_asid + 4 * asid) 4 := load_inBounds hasid
  have hrm := removeFreeList_head s (s.base + t) nx hb hh (by omega) hnx
  have hval : (s.base + t + W64 - s.base) % W64 % W32 = t := by
    simp only [W64, W32]
    have e : s.base + t + 2 ^ 64 - s.base = t + 2 ^ 64 := by omega
    rw [e, Nat.add_mod_right, Nat.mod_eq_of_lt (by omega), Nat.mod_eq_of_lt (by omega)]
  have hs1 : get_vmStart (upd (upd s (s.base + off_freePageHeader) 8 nx) (s.base + t) 8 0)
      = some s.base := by
    unfold get_vmStart load64
    rw [upd_base, upd_base, load_upd_other _ _ _ _ _ _ (by simp) (by simp [off_vmStart]; omega),
      load_upd_other _ _ _ _ _ _ (by simp) (by simp [off_vmStart, off_freePageHeader])]
    exact hstart
  unfold vm_new_addr_space
  rw [if_neg hb, hasid]
  simp only [Option.bind_eq_bind, Option.some_bind, ne_eq, not_true_eq_false, if_false, hh]
  rw [if_neg (by omega), hrm]
  simp only [Option.some_bind, hs1, hval, set_asid, store32, memset0, upd_base]
  rw [store_eq t (by simpa using hin0)]
  simp only [Option.some_bind]
  rw [store_eq 0 (by simp [inBounds]; omega)]
  simp only [Option.some_bind]
  have hs2 : get_vmStart (newSpaceState s asid t nx) = some s.base := by
    unfold get_vmStart load64 newSpaceState
    simp only [upd_base]
    rw [load_upd_other _ _ _ _ _ _ (by simp) (by simp [off_vmStart]; omega),
      load_upd_other _ _ _ _ _ _ (by simp; omega) (by simp [off_vmStart, off_asid]; omega)]
    exact hs1
  unfold newSpaceState at hs2
  rw [hs2]
  simp [hval, newSpaceState]

/-- Reads away from the three places `vm_new_addr_space` writes are not affected. -/
theorem load_newSpaceState_other (s : VM) (asid t nx q j : Nat)
    (h1 : q + j ≤ s.base + off_freePageHeader ∨ s.base + off_freePageHeader + 8 ≤ q)
    (h2 : q + j ≤ s.base + t ∨ s.base + t + 4096 ≤ q)
    (h3 : q + j ≤ s.base + off_asid + 4 * asid ∨ s.base + off_asid + 4 * asid + 4 ≤ q) :
    load (newSpaceState s asid t nx) q j = load s q j := by
  unfold newSpaceState
  rw [load_upd_other _ _ _ _ _ _ (by simp) (by omega),
    load_upd_other _ _ _ _ _ _ (by simp; omega) (by omega),
    load_upd_other _ _ _ _ _ _ (by simp) (by omega),
    load_upd_other _ _ _ _ _ _ (by simp) (by omega)]

@[simp] theorem newSpaceState_base (s : VM) (asid t nx : Nat) :
    (newSpaceState s asid t nx).base = s.base := rfl

@[simp] theorem newSpaceState_numPhys (s : VM) (asid t nx : Nat) :
    (newSpaceState s asid t nx).numPhys = s.numPhys := rfl

theorem spawned_step (n k : Nat) (s : VM) (h : Spawned n k s) (hk : k + 2 < n)
    (hk2 : k < 512) :
    vm_new_addr_space s k
        = some (⟨VM_OK, 4096 * (k + 1)⟩,
            newSpaceState s k (4096 * (k + 1)) (s.base + 4096 * (k + 2))) ∧
      Spawned n (k + 1) (newSpaceState s k (4096 * (k + 1)) (s.base + 4096 * (k + 2))) := by
  obtain ⟨hb, hnp, hn, hw, hstart, hh, hlink, hlast, hasid, hl1⟩ := h
  have hnx : load64 s (s.base + 4096 * (k + 1)) = some (s.base + 4096 * (k + 2)) :=
    hlink (k + 1) (le_refl _) (by omega)
  have hnxlt : s.base + 4096 * (k + 2) < 256 ^ 8 := load_lt hnx
  constructor
  · exact vm_new_addr_space_ok s k (4096 * (k + 1)) (s.base + 4096 * (k + 2)) hb
      (by omega) (by omega) hstart hk2 (hasid k (le_refl _) hk2) hh (by omega) (by omega) hnx
  · refine ⟨hb, hnp, hn, hw, ?_, ?_, ?_, ?_, ?_, ?_⟩
    · simp only [get_vmStart, load64, newSpaceState_base]
      rw [load_newSpaceState_other _ _ _ _ _ _ (by simp [off_vmStart, off_freePageHeader])
        (by simp [off_vmStart]; omega) (by simp [off_vmStart, off_asid]; omega)]
      exact hstart
    · simp only [get_freePageHeader, load64, newSpaceState_base]
      unfold newSpaceState
      rw [load_upd_other _ _ _ _ _ _ (by simp) (by simp [off_freePageHeader]; omega),
        load_upd_other _ _ _ _ _ _ (by simp; omega)
          (by simp [off_freePageHeader, off_asid]; omega),
        load_upd_other _ _ _ _ _ _ (by simp) (by simp [off_freePageHeader]; omega),
        load_upd_same _ _ _ _ (load_inBounds hh)]
      rw [Nat.mod_eq_of_lt hnxlt]
    · intro j hj1 hj2
      simp only [load64, newSpaceState_base]
      rw [load_newSpaceState_other _ _ _ _ _ _ (by simp [off_freePageHeader]; omega)
        (by omega) (by simp [off_asid]; omega)]
      exact hlink j (by omega) hj2
    · simp only [load64, newSpaceState_base]
      rw [load_newSpaceState_other _ _ _ _ _ _ (by simp [off_freePageHeader]; omega)
        (by omega) (by simp [off_asid]; omega)]
      exact hlast
    · intro a ha1 ha2
      simp only [get_asid, load32, newSpaceState_base]
      rw [load_newSpaceState_other _ _ _ _ _ _ (by simp [off_freePageHeader, off_asid]; omega)
        (by simp [off_asid]; omega) (by omega)]
      exact hasid a (by omega) ha2
    · intro _
      simp only [load32, newSpaceState_base]
      by_cases hk0 : k = 0
      · subst hk0
        unfold newSpaceState
        exact load_upd_zero_inside _ _ _ _ _ (by simp) (by simp [inBounds]; omega)
          (by omega) (by omega)
      · rw [load_newSpaceState_other _ _ _ _ _ _ (by simp [off_freePageHeader])
          (by omega) (by simp [off_asid]; omega)]
        exact hl1 (by omega)

/-! ## The steps of `vm_map_page` -/

@[simp] theorem walkState_base (s : VM) (fle h nx : Nat) :
    (walkState s fle h nx).base = s.base := rfl

@[simp] theorem walkState_numPhys (s : VM) (fle h nx : Nat) :
    (walkState s fle h nx).numPhys = s.numPhys := rfl

@[simp] theorem installState_base (s : VM) (sle h nx pte : Nat) :
    (installState s sle h nx pte).base = s.base := rfl

@[simp] theorem installState_numPhys (s : VM) (sle h nx pte : Nat) :
    (installState s sle h nx pte).numPhys = s.numPhys := rfl

/-- The walk of `vm_map_page` when the first-level entry is not present and the free list
has head `h` with link `nx`: `h` is taken, zeroed and installed. -/
theorem mapWalk_absent (s : VM) (fle E1 h nx : Nat) (hb : s.base ≠ 0)
    (hE : E1 &&& 1 = 0) (hh : get_freePageHeader s = some h) (h0 : h ≠ 0)
    (hnx : load64 s h = some nx) (hin : inBounds s h 4096) (hfle : inBounds s fle 4) :
    mapWalk s fle E1 = some (some (walkState s fle h nx)) := by
  unfold mapWalk walkState
  rw [if_pos hE, hh]
  simp only [Option.bind_eq_bind, Option.some_bind]
  rw [if_neg h0, removeFreeList_head s h nx hb hh h0 hnx]
  simp only [Option.some_bind, memset0, store32]
  rw [store_eq 0 (by simpa using hin)]
  simp only [Option.some_bind]
  rw [store_eq _ (by simpa using hfle)]
  simp

/-- The end of `vm_map_page` when the second-level entry is not present and the free list
has head `h` with link `nx`: `h` is taken and the entry written. -/
theorem mapInstall_ok (s : VM) (sle e2 h nx : Nat) (user exec write read : Bool)
    (hb : s.base ≠ 0) (h2 : load32 s sle = some e2) (hE : e2 &&& 1 = 0)
    (hh : get_freePageHeader s = some h) (h0 : h ≠ 0) (hnx : load64 s h = some nx) :
    mapInstall s sle user exec write read
      = some (VM_OK, installState s sle h nx (mapEntry h user exec write read)) := by
  unfold mapInstall installState
  rw [h2]
  simp only [Option.bind_eq_bind, Option.some_bind]
  rw [if_neg (by simpa using hE), hh]
  simp only [Option.some_bind]
  rw [if_neg h0, removeFreeList_head s h nx hb hh h0 hnx]
  simp only [Option.some_bind, store32]
  rw [store_eq _ (by simpa using load_inBounds h2)]
  simp

/-- Reads away from the places the walk writes are not affected. -/
theorem load_walkState_other (s : VM) (fle h nx q j : Nat) (hh : s.base ≤ h)
    (hf : s.base ≤ fle)
    (h1 : q + j ≤ s.base + off_freePageHeader ∨ s.base + off_freePageHeader + 8 ≤ q)
    (h2 : q + j ≤ h ∨ h + 4096 ≤ q) (h3 : q + j ≤ fle ∨ fle + 4 ≤ q) :
    load (walkState s fle h nx) q j = load s q j := by
  unfold walkState
  rw [load_upd_other _ _ _ _ _ _ (by simpa using hf) (by omega),
    load_upd_other _ _ _ _ _ _ (by simpa using hh) (by omega),
    load_upd_other _ _ _ _ _ _ (by simpa using hh) (by omega),
    load_upd_other _ _ _ _ _ _ (by simp) (by omega)]

/-- The first-level entry after the walk. -/
theorem load_walkState_entry (s : VM) (fle h nx : Nat) (hfle : inBounds s fle 4) :
    load (walkState s fle h nx) fle 4
      = some ((((((h + W64 - s.base) % W64) <<< 12) % W64 &&& 0xFFFFF000) ||| 0b11)
          % 256 ^ 4) := by
  unfold walkState
  exact load_upd_same _ _ _ _ (by simpa using hfle)

/-- The head of the free list after the walk. -/
theorem header_walkState (s : VM) (fle h nx : Nat) (hh : s.base ≤ h) (hf : s.base ≤ fle)
    (hhdr : inBounds s (s.base + off_freePageHeader) 8) (hnx : nx < 2 ^ 64)
    (h2 : s.base + off_freePageHeader + 8 ≤ h)
    (h3 : s.base + off_freePageHeader + 8 ≤ fle) :
    get_freePageHeader (walkState s fle h nx) = some nx := by
  unfold get_freePageHeader walkState
  simp only [load64, upd_base]
  rw [load_upd_other _ _ _ _ _ _ (by simpa using hf) (by omega),
    load_upd_other _ _ _ _ _ _ (by simpa using hh) (by omega),
    load_upd_other _ _ _ _ _ _ (by simpa using hh) (by omega),
    load_upd_same _ _ _ _ hhdr, Nat.mod_eq_of_lt (by simpa using hnx)]

/-- Reads away from the places the end of `vm_map_page` writes are not affected. -/
theorem load_installState_other (s : VM) (sle h nx pte q j : Nat) (hh : s.base ≤ h)
    (hs : s.base ≤ sle)
    (h1 : q + j ≤ s.base + off_freePageHeader ∨ s.base + off_freePageHeader + 8 ≤ q)
    (h2 : q + j ≤ h ∨ h + 8 ≤ q) (h3 : q + j ≤ sle ∨ sle + 4 ≤ q) :
    load (installState s sle h nx pte) q j = load s q j := by
  unfold installState
  rw [load_upd_other _ _ _ _ _ _ (by simpa using hs) (by omega),
    load_upd_other _ _ _ _ _ _ (by simpa using hh) (by omega),
    load_upd_other _ _ _ _ _ _ (by simp) (by omega)]

/-! ## Reads that overlap a write in part -/

theorem rd_append (m : Nat → Nat) (j k a : Nat) :
    rd m a (j + k) = rd m a j + 256 ^ j * rd m (a + j) k := by
  induction j generalizing a with
  | zero => simp [rd]
  | succ j ih =>
    have e : j + 1 + k = (j + k) + 1 := by omega
    rw [e]
    simp only [rd]
    rw [ih (a + 1), pow_succ]
    have e2 : a + 1 + j = a + (j + 1) := by omega
    rw [e2]
    ring

/-- The low 4 bytes of an 8-byte word. -/
theorem load_low (s : VM) (p v : Nat) (h : load s p 8 = some v) :
    load s p 4 = some (v % 2 ^ 32) := by
  have hin := load_inBounds h
  unfold load at h ⊢
  rw [if_pos hin] at h
  rw [if_pos (by unfold inBounds at hin ⊢; omega)]
  simp only [Option.some.injEq] at h ⊢
  have ha := rd_append s.mem 4 4 (p - s.base)
  have hl := rd_lt s.mem 4 (p - s.base)
  simp only [Nat.reduceAdd] at ha
  rw [← h, ha]
  omega

/-- An 8-byte word after its low 4 bytes are overwritten. -/
theorem load_upd_low (s : VM) (p x v : Nat) (h : load s p 8 = some v) :
    load (upd s p 4 x) p 8 = some (x % 2 ^ 32 + 2 ^ 32 * (v / 2 ^ 32)) := by
  have hin := load_inBounds h
  have hin' : inBounds (upd s p 4 x) p 8 := hin
  unfold load at h ⊢
  rw [if_pos hin] at h
  rw [if_pos hin']
  simp only [Option.some.injEq] at h ⊢
  have ha := rd_append s.mem 4 4 (p - s.base)
  have hb := rd_append (upd s p 4 x).mem 4 4 (p - s.base)
  have hl := rd_lt s.mem 4 (p - s.base)
  have h1 : rd (upd s p 4 x).mem (p - s.base) 4 = x % 256 ^ 4 :=
    rd_wr_same s.mem 4 (p - s.base) x
  have h2 : rd (upd s p 4 x).mem (p - s.base + 4) 4 = rd s.mem (p - s.base + 4) 4 :=
    rd_wr_other s.mem (p - s.base) 4 x (p - s.base + 4) 4 (by omega)
  simp only [Nat.reduceAdd, upd_base] at ha hb ⊢
  rw [hb, h1, h2]
  rw [ha] at h
  omega

/-! ## A second-level table in frame 256 -/

/-- With 258 frames and frames 1 to 255 in use as first-level tables, the first
`vm_map_page(0x1000, 0, ...)` takes frame 256 as second-level table, writes the new entry
over the low half of `metaData->vmStart` and returns `VM_OK`; the same call again reads
outside the buffer. -/
theorem spawned_map_twice (s0 : VM) (hbase : s0.base = hostBase) (h : Spawned 258 255 s0) :
    ∃ s', vm_map_page s0 0x1000 0 true false true true = some (VM_OK, s') ∧
      get_vmStart s' = some 0x7f001244102F ∧
      vm_map_page s' 0x1000 0 true false true true = none := by
  obtain ⟨hb, hnum, -, -, hstart, hh, hlink, hlast, -, hl1⟩ := h
  have hE1 := hl1 (by decide)
  have hnx := hlink 256 (by decide) (by decide)
  have hB : s0.base = 139638282125312 := hbase
  simp only [hB, Nat.reduceMul, Nat.reduceAdd, Nat.reduceSub] at hstart hh hE1 hnx hlast
  have hinb : ∀ q j, q + j ≤ 139638282125312 + 1056768 → 139638282125312 ≤ q →
      inBounds s0 q j := by
    intro q j h1 h2
    unfold inBounds
    rw [hB, hnum]
    omega
  -- the walk
  have hwalk := mapWalk_absent s0 139638282129408 0 139638283173888 139638283177984 hb
    (by decide) hh (by decide) hnx (hinb _ _ (by decide) (by decide))
    (hinb _ _ (by decide) (by decide))
  generalize hsA : walkState s0 139638282129408 139638283173888 139638283177984 = sA at hwalk
  have hAb : sA.base = 139638282125312 := by rw [← hsA]; exact hB
  have hAn : sA.numPhys = 258 := by rw [← hsA]; exact hnum
  have hA_start : get_vmStart sA = some 139638282125312 := by
    rw [← hstart, ← hsA]
    unfold get_vmStart
    simp only [load64, walkState_base, hB, off_vmStart]
    exact load_walkState_other s0 _ _ _ _ _ (by rw [hB]; decide) (by rw [hB]; decide)
      (by rw [hB]; decide) (by decide) (by decide)
  have hA_e1 : load32 sA 139638282129408 = some 3 := by
    rw [← hsA]
    have := load_walkState_entry s0 139638282129408 139638283173888 139638283177984
      (hinb _ _ (by decide) (by decide))
    rw [hB] at this
    exact this
  have hA_low : load32 sA 139638282125312 = some 305397760 := by
    have h8 : load sA 139638282125312 8 = some 139638282125312 := by
      have := hA_start
      unfold get_vmStart at this
      simpa only [load64, hAb, off_vmStart] using this
    exact load_low sA _ _ h8
  have hA_hdr : get_freePageHeader sA = some 139638283177984 := by
    rw [← hsA]
    exact header_walkState s0 _ _ _ (by rw [hB]; decide) (by rw [hB]; decide)
      (by rw [hB]; exact hinb _ _ (by decide) (by decide)) (by decide)
      (by rw [hB]; decide) (by rw [hB]; decide)
  have hA_nx : load64 sA 139638283177984 = some 0 := by
    rw [← hlast, ← hsA]
    exact load_walkState_other s0 _ _ _ _ _ (by rw [hB]; decide) (by rw [hB]; decide)
      (by rw [hB]; decide) (by decide) (by decide)
  have hAnz : sA.base ≠ 0 := by rw [hAb]; decide
  have hinst := mapInstall_ok sA 139638282125312 305397760 139638283177984 0 true false true
    true hAnz hA_low (by decide) hA_hdr (by decide) hA_nx
  generalize hsC : installState sA 139638282125312 139638283177984 0
    (mapEntry 139638283177984 true false true true) = sC at hinst
  have hCb : sC.base = 139638282125312 := by rw [← hsC]; exact hAb
  have hCn : sC.numPhys = 258 := by rw [← hsC]; exact hAn
  have hC_start : get_vmStart sC = some 139638283178031 := by
    have h8 : load (upd (upd sA (sA.base + off_freePageHeader) 8 0) 139638283177984 8 0)
        139638282125312 8 = some 139638282125312 := by
      rw [load_upd_other _ _ _ _ _ _ (by simp only [upd_base, hAb]; decide) (by decide),
        load_upd_other _ _ _ _ _ _ (by simp) (by rw [hAb]; decide)]
      have := hA_start
      unfold get_vmStart at this
      simpa only [load64, hAb, off_vmStart] using this
    have := load_upd_low _ 139638282125312 (mapEntry 139638283177984 true false true true) _ h8
    unfold get_vmStart
    rw [← hsC]
    simp only [load64, installState_base, hAb, off_vmStart, Nat.add_zero]
    unfold installState
    rw [this]
    decide
  have hf : ((4096 + getFirstLevel 0 * 4) % W32 + 139638282125312) % W64 = 139638282129408 := by
    decide
  have hsl : (139638282125312 + 3 >>> 12 + getSecondLevel 0 * 4 % W32) % W64
      = 139638282125312 := by decide
  have hf2 : ((4096 + getFirstLevel 0 * 4) % W32 + 139638283178031) % W64 = 139638283182127 := by
    decide
  refine ⟨sC, ?_, hC_start, ?_⟩
  · unfold vm_map_page
    simp only [hstart, Option.bind_eq_bind, Option.some_bind, hf, hE1, hwalk, hA_start, hA_e1,
      hsl, hinst]
  · have hout : load32 sC 139638283182127 = none := by
      unfold load32 load
      rw [if_neg]
      unfold inBounds
      rw [hCb, hCn]
      decide
    unfold vm_map_page
    simp only [hC_start, Option.bind_eq_bind, Option.some_bind, hf2, hout, Option.none_bind]

/-! ## The state after `vm_init` -/

theorem initLoop_spec (k : Nat) (s : VM) (p : Nat) (hp : s.base ≤ p)
    (hin : p + 4096 * k + 8 ≤ s.base + 4096 * s.numPhys)
    (hw : s.base + 4096 * s.numPhys ≤ 2 ^ 64) :
    ∃ s', initLoop k p s = some (p + 4096 * k, s') ∧ s'.base = s.base ∧
      s'.numPhys = s.numPhys ∧
      (∀ q j, (q + j ≤ p ∨ p + 4096 * k ≤ q) → load s' q j = load s q j) ∧
      (∀ i, i < k → load64 s' (p + 4096 * i) = some (p + 4096 * (i + 1))) := by
  induction k generalizing s p with
  | zero => exact ⟨s, rfl, rfl, rfl, fun _ _ _ => rfl, fun i hi => absurd hi (by omega)⟩
  | succ k ih =>
    have hm : (p + 4096) % W64 = p + 4096 := Nat.mod_eq_of_lt (by simp only [W64]; omega)
    have hinb : inBounds s p 8 := by unfold inBounds; omega
    obtain ⟨s', h1, h2, h3, h4, h5⟩ := ih (upd s p 8 (p + 4096)) (p + 4096)
      (by simp only [upd_base]; omega) (by simp only [upd_base, upd_numPhys]; omega)
      (by simpa using hw)
    have hl : load64 (upd s p 8 (p + 4096)) p = some (p + 4096) := by
      simp only [load64]
      rw [load_upd_same _ _ _ _ hinb, Nat.mod_eq_of_lt (by omega)]
    refine ⟨s', ?_, by simpa using h2, by simpa using h3, ?_, ?_⟩
    · unfold initLoop
      simp only [Option.bind_eq_bind, store64, hm]
      rw [store_eq _ hinb]
      have e : p + 4096 + 4096 * k = p + 4096 * (k + 1) := by omega
      simp only [Option.some_bind, hl, h1, e]
    · intro q j hq
      rw [h4 q j (by omega), load_upd_other _ _ _ _ _ _ hp (by omega)]
    · intro i hi
      cases i with
      | zero =>
        simp only [load64, Nat.mul_zero, Nat.add_zero, Nat.zero_add, Nat.mul_one]
        rw [h4 p 8 (by omega)]
        exact hl
      | succ i =>
        have e1 : p + 4096 * (i + 1) = p + 4096 + 4096 * i := by omega
        have e2 : p + 4096 * (i + 1 + 1) = p + 4096 + 4096 * (i + 1) := by omega
        rw [e1, e2]
        exact h5 i (by omega)

@[simp] theorem metaState_base (b n nsw : Nat) (mem0 : Nat → Nat) :
    (metaState b n nsw mem0).base = b := rfl

@[simp] theorem metaState_numPhys (b n nsw : Nat) (mem0 : Nat → Nat) :
    (metaState b n nsw mem0).numPhys = n := rfl

theorem initMetadata_eq (b n nsw : Nat) (mem0 : Nat → Nat) (hn : 1 ≤ n) :
    (initMetadata ⟨b, n, mem0⟩ b n nsw).bind (fun s => set_asid s 0 0)
      = some (metaState b n nsw mem0) := by
  unfold initMetadata set_asid metaState
  simp only [Option.bind_eq_bind, memset0, store64, store32]
  rw [store_eq _ (by simp [inBounds, sizeof_metadata]; omega)]
  simp only [Option.some_bind]
  rw [store_eq _ (by simp [inBounds, off_vmStart]; omega)]
  simp only [Option.some_bind]
  rw [store_eq _ (by simp [inBounds, off_vmEnd]; omega)]
  simp only [Option.some_bind]
  rw [store_eq _ (by simp [inBounds, off_firstPage]; omega)]
  simp only [Option.some_bind]
  rw [store_eq _ (by simp [inBounds, off_numPages]; omega)]
  simp only [Option.some_bind]
  rw [store_eq _ (by simp [inBounds, off_swapFile]; omega)]
  simp only [Option.some_bind]
  rw [store_eq _ (by simp [inBounds, off_numSwapPages]; omega)]
  simp only [Option.some_bind]
  rw [store_eq _ (by simp [inBounds, off_freePageHeader]; omega)]
  simp only [Option.some_bind, upd_base]
  rw [store_eq _ (by simp [inBounds, off_asid]; omega)]

theorem vmStart_metaState (b n nsw : Nat) (mem0 : Nat → Nat) (hn : 1 ≤ n)
    (hw : b + 4096 * n ≤ 2 ^ 64) : get_vmStart (metaState b n nsw mem0) = some b := by
  unfold get_vmStart metaState
  simp only [load64, upd_base, off_vmStart, off_vmEnd, off_firstPage, off_numPages,
    off_swapFile, off_numSwapPages, off_freePageHeader, off_asid, Nat.add_zero, Nat.mul_zero]
  rw [load_upd_other _ _ _ _ _ _ (by simp) (by omega),
    load_upd_other _ _ _ _ _ _ (by simp) (by omega),
    load_upd_other _ _ _ _ _ _ (by simp) (by omega),
    load_upd_other _ _ _ _ _ _ (by simp) (by omega),
    load_upd_other _ _ _ _ _ _ (by simp) (by omega),
    load_upd_other _ _ _ _ _ _ (by simp) (by omega),
    load_upd_other _ _ _ _ _ _ (by simp) (by omega),
    load_upd_same _ _ _ _ (by simp [inBounds]; omega), Nat.mod_eq_of_lt (by omega)]

theorem header_metaState (b n nsw : Nat) (mem0 : Nat → Nat) (hn : 2 ≤ n)
    (hw : b + 4096 * n ≤ 2 ^ 64) :
    get_freePageHeader (metaState b n nsw mem0) = some (b + 4096) := by
  have hm : (b + 4096) % W64 = b + 4096 := Nat.mod_eq_of_lt (by simp only [W64]; omega)
  unfold get_freePageHeader metaState
  rw [hm]
  simp only [load64, upd_base, off_vmStart, off_vmEnd, off_firstPage, off_numPages,
    off_swapFile, off_numSwapPages, off_freePageHeader, off_asid, Nat.add_zero, Nat.mul_zero]
  rw [load_upd_other _ _ _ _ _ _ (by simp) (by omega),
    load_upd_same _ _ _ _ (by simp [inBounds]; omega), Nat.mod_eq_of_lt (by omega)]

theorem asid_metaState (b n nsw a : Nat) (mem0 : Nat → Nat) (hn : 1 ≤ n) (ha : a < 512) :
    get_asid (metaState b n nsw mem0) a = some 0 := by
  unfold get_asid metaState
  simp only [load32, upd_base, off_vmStart, off_vmEnd, off_firstPage, off_numPages,
    off_swapFile, off_numSwapPages, off_freePageHeader, off_asid, Nat.add_zero, Nat.mul_zero,
    sizeof_metadata]
  by_cases h0 : a = 0
  · subst h0
    exact load_upd_same _ _ _ _ (by simp [inBounds]; omega)
  · rw [load_upd_other _ _ _ _ _ _ (by simp) (by omega),
      load_upd_other _ _ _ _ _ _ (by simp) (by omega),
      load_upd_other _ _ _ _ _ _ (by simp) (by omega),
      load_upd_other _ _ _ _ _ _ (by simp) (by omega),
      load_upd_other _ _ _ _ _ _ (by simp) (by omega),
      load_upd_other _ _ _ _ _ _ (by simp) (by omega),
      load_upd_other _ _ _ _ _ _ (by simp) (by omega),
      load_upd_other _ _ _ _ _ _ (by simp) (by omega)]
    exact load_upd_zero_inside _ _ _ _ _ (by simp) (by simp [inBounds]; omega) (by omega)
      (by omega)

/-- The function `vm_init` returns a handle, and the state it leaves has the whole free list
threaded and no address space. -/
theorem vm_init_spawned (b n sw nsw : Nat) (mem0 : Nat → Nat) (hb : b ≠ 0) (hn2 : 2 ≤ n)
    (hn : n ≤ 1048576) (hw : b + 4096 * n ≤ 2 ^ 64) :
    ∃ s, vm_init b n mem0 sw nsw = some (some s) ∧ s.base = b ∧ Spawned n 0 s := by
  have hmeta := initMetadata_eq b n nsw mem0 (by omega)
  obtain ⟨s', h1, h2, h3, h4, h5⟩ := initLoop_spec (n - 1 - 1) (metaState b n nsw mem0)
    (b + 4096) (by simp) (by simp only [metaState_base, metaState_numPhys]; omega)
    (by simpa using hw)
  simp only [metaState_base, metaState_numPhys] at h2 h3
  have hlastp : b + 4096 + 4096 * (n - 1 - 1) = b + 4096 * (n - 1) := by omega
  rw [hlastp] at h1
  have hinl : inBounds s' (b + 4096 * (n - 1)) 8 := by
    unfold inBounds
    rw [h2, h3]
    omega
  refine ⟨upd s' (b + 4096 * (n - 1)) 8 0, ?_, by simpa using h2, ?_⟩
  · unfold vm_init
    simp only []
    rw [if_neg hb, if_neg (by omega)]
    cases hi : initMetadata ⟨b, n, mem0⟩ b n nsw with
    | none => rw [hi] at hmeta; exact absurd hmeta (by simp)
    | some u =>
      rw [hi] at hmeta
      simp only [Option.bind_eq_bind, Option.some_bind] at hmeta ⊢
      rw [hmeta]
      simp only [Option.some_bind, header_metaState b n nsw mem0 hn2 hw, h1, store64]
      rw [store_eq _ hinl]
      rfl
  · have hpb : s'.base ≤ b + 4096 * (n - 1) := by rw [h2]; omega
    refine ⟨by simpa [h2] using hb, by simpa using h3, hn, by simpa [h2] using hw,
      ?_, ?_, ?_, ?_, ?_, fun h => absurd h (by decide)⟩
    · unfold get_vmStart
      simp only [load64, upd_base, h2, off_vmStart, Nat.add_zero]
      rw [load_upd_other _ _ _ _ _ _ hpb (by omega), h4 _ _ (by omega)]
      have := vmStart_metaState b n nsw mem0 (by omega) hw
      unfold get_vmStart at this
      simpa [off_vmStart] using this
    · unfold get_freePageHeader
      simp only [load64, upd_base, h2, off_freePageHeader]
      rw [load_upd_other _ _ _ _ _ _ hpb (by omega), h4 _ _ (by omega)]
      have := header_metaState b n nsw mem0 hn2 hw
      unfold get_freePageHeader at this
      simpa [off_freePageHeader] using this
    · intro j hj1 hj2
      simp only [load64, upd_base, h2]
      rw [load_upd_other _ _ _ _ _ _ hpb (by omega)]
      have := h5 (j - 1) (by omega)
      have e1 : b + 4096 + 4096 * (j - 1) = b + 4096 * j := by omega
      have e2 : b + 4096 + 4096 * (j - 1 + 1) = b + 4096 * (j + 1) := by omega
      rw [e1, e2] at this
      exact this
    · simp only [load64, upd_base, h2]
      exact load_upd_same _ _ _ _ hinl
    · intro a _ ha
      unfold get_asid
      simp only [load32, upd_base, h2, off_asid]
      rw [load_upd_other _ _ _ _ _ _ hpb (by omega), h4 _ _ (by omega)]
      have := asid_metaState b n nsw a mem0 (by omega) ha
      unfold get_asid at this
      simpa [off_asid] using this

/-- Creating `k` address spaces in turn after `vm_init`. -/
theorem spawn_spawned (n k : Nat) (s : VM) (h : Spawned n 0 s) (hk : k + 1 < n)
    (hk2 : k ≤ 512) : ∃ s', spawn k s = some s' ∧ s'.base = s.base ∧ Spawned n k s' := by
  induction k with
  | zero => exact ⟨s, rfl, rfl, h⟩
  | succ k ih =>
    obtain ⟨s1, h1, h2, h3⟩ := ih (by omega) (by omega)
    have hs := spawned_step n k s1 h3 (by omega) (by omega)
    refine ⟨_, ?_, ?_, hs.2⟩
    · unfold spawn
      rw [h1]
      simp only [Option.some_bind, hs.1, Option.map_some']
    · simpa using h2

/-! ## The free list as a list -/

theorem freeListFrom_nil (s : VM) (fuel : Nat) : freeListFrom s (fuel + 1) 0 = some [] := by
  unfold freeListFrom
  rw [if_pos rfl]

/-- What `freeListFrom` says about a list that starts with `h`. -/
theorem freeListFrom_cons (s : VM) (fuel p h : Nat) (rest : List Nat)
    (hl : freeListFrom s fuel p = some (h :: rest)) :
    p = h ∧ h ≠ 0 ∧ ∃ nx fuel', fuel = fuel' + 1 ∧ load64 s h = some nx ∧
      freeListFrom s fuel' nx = some rest := by
  cases fuel with
  | zero => exact absurd hl (by simp [freeListFrom])
  | succ fuel' =>
    unfold freeListFrom at hl
    by_cases hp : p = 0
    · rw [if_pos hp] at hl
      exact absurd hl (by simp)
    · rw [if_neg hp] at hl
      cases hn : load64 s p with
      | none => rw [hn] at hl; exact absurd hl (by simp)
      | some nx =>
        rw [hn] at hl
        simp only [Option.bind_eq_bind, Option.some_bind] at hl
        cases hr : freeListFrom s fuel' nx with
        | none => rw [hr] at hl; exact absurd hl (by simp)
        | some l =>
          rw [hr] at hl
          simp only [Option.some_bind, Option.some.injEq, List.cons.injEq] at hl
          obtain ⟨h1, h2⟩ := hl
          subst h1
          subst h2
          exact ⟨rfl, hp, nx, fuel', rfl, hn, hr⟩

/-- More fuel does not change a walk that reached the end. -/
theorem freeListFrom_succ (s : VM) (fuel p : Nat) (l : List Nat)
    (hl : freeListFrom s fuel p = some l) : freeListFrom s (fuel + 1) p = some l := by
  induction fuel generalizing p l with
  | zero => exact absurd hl (by simp [freeListFrom])
  | succ fuel ih =>
    unfold freeListFrom at hl ⊢
    by_cases hp : p = 0
    · rw [if_pos hp] at hl ⊢
      exact hl
    · rw [if_neg hp] at hl ⊢
      cases hn : load64 s p with
      | none => rw [hn] at hl; exact absurd hl (by simp)
      | some nx =>
        rw [hn] at hl
        simp only [Option.bind_eq_bind, Option.some_bind] at hl ⊢
        cases hr : freeListFrom s fuel nx with
        | none => rw [hr] at hl; exact absurd hl (by simp)
        | some l' =>
          rw [hr] at hl
          rw [ih nx l' hr]
          exact hl

/-- The walk reads the links of its nodes only. -/
theorem freeListFrom_congr (s s' : VM) (fuel p : Nat) (l : List Nat)
    (hl : freeListFrom s fuel p = some l) (hq : ∀ q ∈ l, load64 s' q = load64 s q) :
    freeListFrom s' fuel p = some l := by
  induction fuel generalizing p l with
  | zero => exact absurd hl (by simp [freeListFrom])
  | succ fuel ih =>
    unfold freeListFrom at hl ⊢
    by_cases hp : p = 0
    · rw [if_pos hp] at hl ⊢
      exact hl
    · rw [if_neg hp] at hl ⊢
      cases hn : load64 s p with
      | none => rw [hn] at hl; exact absurd hl (by simp)
      | some nx =>
        rw [hn] at hl
        simp only [Option.bind_eq_bind, Option.some_bind] at hl
        cases hr : freeListFrom s fuel nx with
        | none => rw [hr] at hl; exact absurd hl (by simp)
        | some l' =>
          rw [hr] at hl
          simp only [Option.some_bind, Option.some.injEq] at hl
          subst hl
          rw [hq p (List.mem_cons_self _ _), hn]
          simp only [Option.bind_eq_bind, Option.some_bind]
          rw [ih nx l' hr (fun q hq' => hq q (List.mem_cons_of_mem _ hq'))]
          rfl

/-- The walk over frames `j, j + 1, ..., n - 1` linked in ascending order. -/
theorem freeListFrom_frames (s : VM) (b n : Nat)
    (hlink : ∀ i, 1 ≤ i → i + 1 < n → load64 s (b + 4096 * i) = some (b + 4096 * (i + 1)))
    (hlast : load64 s (b + 4096 * (n - 1)) = some 0) (m j fuel : Nat) (hj : 1 ≤ j)
    (hjm : j + m + 1 = n) (hf : m + 2 ≤ fuel) :
    freeListFrom s fuel (b + 4096 * j)
      = some ((List.range (m + 1)).map fun i => b + 4096 * (j + i)) := by
  induction m generalizing j fuel with
  | zero =>
    obtain ⟨f, rfl⟩ : ∃ f, fuel = f + 2 := ⟨fuel - 2, by omega⟩
    have e : n - 1 = j := by omega
    rw [e] at hlast
    unfold freeListFrom
    rw [if_neg (by omega), hlast]
    simp only [Option.bind_eq_bind, Option.some_bind, freeListFrom_nil]
    rfl
  | succ m ih =>
    obtain ⟨f, rfl⟩ : ∃ f, fuel = f + 1 := ⟨fuel - 1, by omega⟩
    unfold freeListFrom
    rw [if_neg (by omega), hlink j hj (by omega)]
    simp only [Option.bind_eq_bind, Option.some_bind]
    rw [ih (j + 1) f (by omega) (by omega) (by omega)]
    simp only [Option.some_bind, Option.some.injEq]
    rw [List.range_succ_eq_map (m + 1)]
    simp only [List.map_cons, List.map_map, Nat.add_zero, List.cons.injEq, true_and]
    apply List.map_congr_left
    intro i _
    simp only [Function.comp]
    omega

/-! ## `vm_init` in closed form -/

/-- The bytes after the loop of `vm_init`. -/
theorem initLoop_mem (k : Nat) (s : VM) (p : Nat) (hp : s.base ≤ p)
    (hin : p + 4096 * k + 8 ≤ s.base + 4096 * s.numPhys)
    (hw : s.base + 4096 * s.numPhys ≤ 2 ^ 64) :
    ∃ s', initLoop k p s = some (p + 4096 * k, s') ∧ s'.base = s.base ∧
      s'.numPhys = s.numPhys ∧
      ∀ x, s'.mem x =
        if p - s.base ≤ x ∧ x < p - s.base + 4096 * k ∧ (x - (p - s.base)) % 4096 < 8 then
          (p + 4096 * ((x - (p - s.base)) / 4096 + 1)) / 256 ^ ((x - (p - s.base)) % 4096) % 256
        else s.mem x := by
  induction k generalizing s p with
  | zero =>
    refine ⟨s, rfl, rfl, rfl, fun x => ?_⟩
    rw [if_neg (by omega)]
  | succ k ih =>
    have hm : (p + 4096) % W64 = p + 4096 := Nat.mod_eq_of_lt (by simp only [W64]; omega)
    have hinb : inBounds s p 8 := by unfold inBounds; omega
    obtain ⟨s', h1, h2, h3, h4⟩ := ih (upd s p 8 (p + 4096)) (p + 4096)
      (by simp only [upd_base]; omega) (by simp only [upd_base, upd_numPhys]; omega)
      (by simpa using hw)
    have hl : load64 (upd s p 8 (p + 4096)) p = some (p + 4096) := by
      simp only [load64]
      rw [load_upd_same _ _ _ _ hinb, Nat.mod_eq_of_lt (by omega)]
    refine ⟨s', ?_, by simpa using h2, by simpa using h3, ?_⟩
    · unfold initLoop
      simp only [Option.bind_eq_bind, store64, hm]
      rw [store_eq _ hinb]
      have e : p + 4096 + 4096 * k = p + 4096 * (k + 1) := by omega
      simp only [Option.some_bind, hl, h1, e]
    · intro x
      rw [h4 x]
      simp only [upd_base]
      have hoff : p + 4096 - s.base = p - s.base + 4096 := by omega
      rw [hoff]
      by_cases hc : p - s.base + 4096 ≤ x ∧ x < p - s.base + 4096 + 4096 * k ∧
          (x - (p - s.base + 4096)) % 4096 < 8
      · rw [if_pos hc, if_pos (by omega)]
        have e1 : (x - (p - s.base + 4096)) % 4096 = (x - (p - s.base)) % 4096 := by omega
        have e2 : p + 4096 + 4096 * ((x - (p - s.base + 4096)) / 4096 + 1)
            = p + 4096 * ((x - (p - s.base)) / 4096 + 1) := by omega
        rw [e1, e2]
      · rw [if_neg hc]
        show wr s.mem (p - s.base) 8 (p + 4096) x = _
        by_cases hx : p - s.base ≤ x ∧ x < p - s.base + 8
        · rw [wr_inside _ _ _ _ _ hx.1 hx.2, if_pos (by omega)]
          have e1 : (x - (p - s.base)) % 4096 = x - (p - s.base) := by omega
          have e2 : p + 4096 * ((x - (p - s.base)) / 4096 + 1) = p + 4096 := by omega
          rw [e1, e2]
        · rw [wr_other _ _ _ _ _ (by omega), if_neg (by omega)]

theorem initMem_apply (b n nsw : Nat) (mem0 : Nat → Nat) (x : Nat) :
    initMem b n nsw mem0 x
      = if 4096 ≤ x ∧ x < 4096 * n ∧ x % 4096 < 8 then linkByte b n x
        else (metaState b n nsw mem0).mem x := by
  unfold initMem
  by_cases h1 : 4096 ≤ x
  · by_cases h2 : x < 4096 * n
    · by_cases h3 : x % 4096 < 8
      · rw [if_pos ⟨h1, h2, h3⟩, Nat.ble_eq.mpr h1, Nat.blt_eq.mpr h2, Nat.blt_eq.mpr h3]
        rfl
      · have hb : Nat.blt (x % 4096) 8 = false := by
          cases hb : Nat.blt (x % 4096) 8 with
          | false => rfl
          | true => exact absurd (Nat.blt_eq.mp hb) h3
        rw [if_neg (fun h => h3 h.2.2), hb, Bool.and_false]
        rfl
    · have hb : Nat.blt x (4096 * n) = false := by
        cases hb : Nat.blt x (4096 * n) with
        | false => rfl
        | true => exact absurd (Nat.blt_eq.mp hb) h2
      rw [if_neg (fun h => h2 h.2.1), hb, Bool.and_false, Bool.false_and]
      rfl
  · have hb : Nat.ble 4096 x = false := by
      cases hb : Nat.ble 4096 x with
      | false => rfl
      | true => exact absurd (Nat.ble_eq.mp hb) h1
    rw [if_neg (fun h => h1 h.1), hb, Bool.false_and, Bool.false_and]
    rfl

/-- The function `vm_init` returns a handle and leaves `initState`. -/
theorem vm_init_eq (b n sw nsw : Nat) (mem0 : Nat → Nat) (hb : b ≠ 0) (hn2 : 2 ≤ n)
    (hn : n ≤ 1048576) (hw : b + 4096 * n ≤ 2 ^ 64) :
    vm_init b n mem0 sw nsw = some (some (initState b n nsw mem0)) := by
  have hmeta := initMetadata_eq b n nsw mem0 (by omega)
  obtain ⟨s', h1, h2, h3, h4⟩ := initLoop_mem (n - 1 - 1) (metaState b n nsw mem0)
    (b + 4096) (by simp) (by simp only [metaState_base, metaState_numPhys]; omega)
    (by simpa using hw)
  simp only [metaState_base, metaState_numPhys] at h2 h3 h4
  have hlastp : b + 4096 + 4096 * (n - 1 - 1) = b + 4096 * (n - 1) := by omega
  rw [hlastp] at h1
  have hinl : inBounds s' (b + 4096 * (n - 1)) 8 := by
    unfold inBounds
    rw [h2, h3]
    omega
  have hfinal : upd s' (b + 4096 * (n - 1)) 8 0 = initState b n nsw mem0 := by
    unfold upd initState
    rw [VM.mk.injEq]
    refine ⟨h2, h3, funext fun x => ?_⟩
    rw [h2]
    have hoff : b + 4096 * (n - 1) - b = 4096 * (n - 1) := by omega
    have hoff2 : b + 4096 - b = 4096 := by omega
    rw [hoff]
    rw [initMem_apply]
    by_cases hx : 4096 * (n - 1) ≤ x ∧ x < 4096 * (n - 1) + 8
    · rw [wr_inside _ _ _ _ _ hx.1 hx.2, if_pos (by omega)]
      unfold linkByte
      rw [if_neg (by omega), Nat.zero_div, Nat.zero_div]
    · rw [wr_other _ _ _ _ _ (by omega), h4 x, hoff2]
      by_cases hc : 4096 ≤ x ∧ x < 4096 + 4096 * (n - 1 - 1) ∧ (x - 4096) % 4096 < 8
      · rw [if_pos hc, if_pos (by omega)]
        unfold linkByte
        rw [if_pos (by omega)]
        have e1 : (x - 4096) % 4096 = x % 4096 := by omega
        have e2 : b + 4096 + 4096 * ((x - 4096) / 4096 + 1) = b + 4096 * (x / 4096 + 1) := by
          omega
        rw [e1, e2]
      · rw [if_neg hc, if_neg (by omega)]
  unfold vm_init
  simp only []
  rw [if_neg hb, if_neg (by omega)]
  cases hi : initMetadata ⟨b, n, mem0⟩ b n nsw with
  | none => rw [hi] at hmeta; exact absurd hmeta (by simp)
  | some u =>
    rw [hi] at hmeta
    simp only [Option.bind_eq_bind, Option.some_bind] at hmeta ⊢
    rw [hmeta]
    simp only [Option.some_bind, header_metaState b n nsw mem0 hn2 hw, h1, store64]
    rw [store_eq _ hinl, hfinal]
    rfl

/-! ## The function `addFreeList` -/

/-- The function `addFreeList` when the head pointer reads `h`. -/
theorem addFreeList_eq (s : VM) (p h : Nat) (hh : get_freePageHeader s = some h)
    (hin : inBounds s p 8) :
    addFreeList s p = some (upd (upd s p 8 h) (s.base + off_freePageHeader) 8 p) := by
  unfold addFreeList
  rw [hh]
  simp only [Option.bind_eq_bind, Option.some_bind, store64, set_freePageHeader]
  rw [store_eq _ hin]
  simp only [Option.some_bind, upd_base]
  rw [store_eq _ (by simpa using load_inBounds hh)]

/-! ## `vm_destroy_addr_space` on an empty address space -/

/-- The outer loop of `vm_destroy_addr_space` changes nothing when no entry of the table has
its present bit. -/
theorem destroyOuter_absent (s : VM) (p k j : Nat)
    (h : ∀ m, m < k → (load32 s ((p + (j + 4 * m)) % W64)).map (fun e => e &&& 1) = some 0) :
    destroyOuter p k j s = some (VM_OK, s) := by
  induction k generalizing j with
  | zero => rfl
  | succ k ih =>
    have h0 := h 0 (by omega)
    simp only [Nat.mul_zero, Nat.add_zero] at h0
    unfold destroyOuter
    cases hl : load32 s ((p + j) % W64) with
    | none => rw [hl] at h0; exact absurd h0 (by simp)
    | some e =>
      rw [hl] at h0
      simp only [Option.map_some', Option.some.injEq] at h0
      simp only [Option.bind_eq_bind, Option.some_bind]
      rw [if_neg (by rw [h0]; simp)]
      apply ih
      intro m hm
      have := h (m + 1) (by omega)
      have e1 : j + 4 * (m + 1) = j + 4 + 4 * m := by omega
      rw [e1] at this
      exact this

/-- The function `vm_destroy_addr_space(asid)` on an address space whose table, the frame at
`t`, has no present entry: the frame goes to the head of the free list and the entry of
`asid` is cleared. -/
theorem vm_destroy_addr_space_empty (s : VM) (asid t h : Nat)
    (hw : s.base + 4096 * s.numPhys ≤ 2 ^ 64)
    (hasid : get_asid s asid = some t) (ht : 4096 ≤ t) (htn : t + 4096 ≤ 4096 * s.numPhys)
    (hal : (s.base + t) % 4096 = 0)
    (hh : get_freePageHeader s = some h)
    (hL1 : ∀ i, i < 1024 →
      (load32 s (s.base + t + 4 * i)).map (fun e => e &&& 1) = some 0) :
    vm_destroy_addr_space s asid
      = some (VM_OK, upd (upd (upd s (s.base + t) 8 h) (s.base + off_freePageHeader) 8
          (s.base + t)) (s.base + off_asid + 4 * asid) 4 0) := by
  have hina : inBounds s (s.base + off_asid + 4 * asid) 4 := load_inBounds hasid
  have htop : (t + s.base) % W64 = s.base + t := by
    rw [Nat.add_comm]
    exact Nat.mod_eq_of_lt (by simp only [W64]; omega)
  have hout : destroyOuter (s.base + t) 1024 0 s = some (VM_OK, s) := by
    apply destroyOuter_absent
    intro m hm
    have e : (s.base + t + (0 + 4 * m)) % W64 = s.base + t + 4 * m := by
      rw [Nat.zero_add]
      exact Nat.mod_eq_of_lt (by simp only [W64]; omega)
    rw [e]
    exact hL1 m hm
  have hadd := addFreeList_eq s (s.base + t) h hh (by unfold inBounds; omega)
  unfold vm_destroy_addr_space
  rw [hasid]
  simp only [Option.bind_eq_bind, Option.some_bind]
  rw [if_neg (by omega), htop, if_neg (by rw [hal]; simp), hout]
  simp only [Option.some_bind]
  rw [if_pos trivial, hadd]
  simp only [Option.some_bind, set_asid, store32, upd_base]
  rw [store_eq 0 (by simpa using hina)]
  rfl

/-- Reads away from the three places the two calls write are not affected. -/
theorem load_roundTripState_other (s : VM) (asid t nx q j : Nat)
    (h1 : q + j ≤ s.base + off_freePageHeader ∨ s.base + off_freePageHeader + 8 ≤ q)
    (h2 : q + j ≤ s.base + t ∨ s.base + t + 4096 ≤ q)
    (h3 : q + j ≤ s.base + off_asid + 4 * asid ∨ s.base + off_asid + 4 * asid + 4 ≤ q) :
    load (roundTripState s asid t nx) q j = load s q j := by
  unfold roundTripState
  rw [load_upd_other _ _ _ _ _ _ (by simp; omega) (by omega),
    load_upd_other _ _ _ _ _ _ (by simp) (by omega),
    load_upd_other _ _ _ _ _ _ (by simp) (by omega)]
  exact load_newSpaceState_other s asid t nx q j h1 h2 h3

/-! ## Theorems -/

/-- C1. In scenario S1 `vm_new_addr_space(0)` returns `0x1000` and `vm_map_page` returns
`VM_OK`, yet the following `vm_translate(pt, 0x00403ABC, VM_READ, user)` does not return
`VM_OK` with an address: it leaves the buffer (the embedding has no result for it). -/
theorem s1_translate_no_result :
    s1_space.map (fun r => r.1) = some ⟨VM_OK, 0x1000⟩ ∧
    s1_map.map (fun r => r.1) = some VM_OK ∧
    s1_map.map (fun r => vm_translate r.2 0x1000 0x00403ABC VM_READ true) = some none := by
  decide

set_option maxRecDepth 100000 in
/-- C2. In scenario S1 (8 frames) after the successful `vm_map_page` the free list holds the
4 frames at offsets `0x4000` to `0x7000`, and the frames reachable from the active
first-level tables are the table `0x1000` and the address `0x02000000` named by its present
entry, which is no frame of the buffer: 4 + 2 is not 7, and the frames at `0x2000` and
`0x3000` that the call took are neither free nor reachable. -/
theorem s1_frames_not_conserved :
    s1_map.map (fun r => r.1) = some VM_OK ∧
    s1_map.map (fun r => freeList r.2)
      = some (some [hostBase + 0x4000, hostBase + 0x5000, hostBase + 0x6000,
          hostBase + 0x7000]) ∧
    s1_map.map (fun r => reachableFrames r.2) = some [0x1000, 0x02000000] ∧
    [hostBase + 0x4000, hostBase + 0x5000, hostBase + 0x6000, hostBase + 0x7000].length
      + [0x1000, 0x02000000].length ≠ 8 - 1 := by
  decide!

/-- C3. In scenario S1, after the mapping, `vm_translate(pt, 0x00403000, VM_READ, true)` reads
the first-level entry `0x02000003` at physical offset `0x1004` and then reads its second-level
entry at physical offset `0x02000000 + 12`, which is not below `4096 * 8`: the read is outside
the buffer, and the translation has no result. -/
theorem s1_translate_reads_outside :
    s1_map.map (fun r => get_vmStart r.2) = some (some hostBase) ∧
    s1_map.map (fun r => load32 r.2 (hostBase + 0x1004)) = some (some 0x02000003) ∧
    ¬ (0x02000000 + 12 + 4 ≤ 4096 * 8) ∧
    s1_map.map (fun r => load32 r.2 (hostBase + (0x02000003 &&& 0xFFFFF000) + 3 * 4))
      = some none ∧
    s1_map.map (fun r => vm_translate r.2 0x1000 0x00403000 VM_READ true) = some none := by
  decide

/-- C4. In scenario S1 the first-level entry for `0x00403000` is not present before the
mapping and the head of the free list is the frame at offset `0x2000`; the word that
`vm_map_page` stores in the entry is `0x02000003`, whose bits 12-31 are `0x02000000`, not
`0x2000`. -/
theorem s1_first_level_word :
    s1_space.map (fun r => load32 r.2 (hostBase + 0x1000 + 4 * 1)) = some (some 0) ∧
    s1_space.map (fun r => get_freePageHeader r.2) = some (some (hostBase + 0x2000)) ∧
    s1_map.map (fun r => r.1) = some VM_OK ∧
    s1_map.map (fun r => load32 r.2 (hostBase + 0x1000 + 4 * 1)) = some (some 0x02000003) ∧
    0x02000003 &&& 0xFFFFF000 = 0x02000000 ∧ 0x02000003 &&& 0xFFFFF000 ≠ 0x2000 := by
  decide

/-- C5. In scenario S1 the free list after `vm_new_addr_space(0)` starts with the frames at
offsets `0x2000` and `0x3000`; `vm_map_page` takes the first as table and the second as data
frame (the head is the frame at `0x4000` afterwards) and returns `VM_OK`, and the word in the
second-level entry is `0x1234302F`: bits 12-31 are those of the host pointer
`0x7f0012343000`, not the physical address `0x3000`, which would give `0x302F`. -/
theorem s1_second_level_word :
    s1_space.map (fun r => get_freePageHeader r.2) = some (some (hostBase + 0x2000)) ∧
    s1_space.map (fun r => load64 r.2 (hostBase + 0x2000)) = some (some (hostBase + 0x3000)) ∧
    s1_map.map (fun r => r.1) = some VM_OK ∧
    s1_map.map (fun r => get_freePageHeader r.2) = some (some (hostBase + 0x4000)) ∧
    s1_map.map (fun r => load32 r.2 (hostBase + 0x2000 + 4 * 3)) = some (some 0x1234302F) ∧
    0x1234302F ≠ 0x3000 ||| 0b11 ||| 0x4 ||| 0x8 ||| 0x20 := by
  decide

/-- C6. When the first-level entry `E1` for `v` is present and the second-level entry `e` at
`(E1 & 0xFFFFF000) + 4 * ((v >> 12) & 0x3FF)` is present, `vm_translate(pt, v, access, user)`
returns `VM_OK` exactly when (`user` is false or bit 5 of `e` is set) and the bit of `e`
that matches `access` is set (bit 4 for `VM_EXEC`, bit 2 for `VM_READ`, bit 3 for
`VM_WRITE`), and `VM_BAD_PERM` with address 0 otherwise; the address returned with `VM_OK`
is `(e & 0xFFFFF000) | (v & 0xFFF)`: the sum of the source is that disjunction, its low 12
bits are `v & 0xFFF` and its frame bits are those of `e`. -/
theorem vm_translate_permission (s : VM) (pt v E1 e : Nat) (access : access_type_t)
    (user : Bool) (hn : s.numPhys ≤ 1048576) (hb : s.base + 4096 * s.numPhys ≤ 2 ^ 64)
    (hstart : get_vmStart s = some s.base)
    (h1 : load32 s (s.base + (pt + 4 * ((v >>> 22) &&& 0x3FF))) = some E1)
    (hp1 : E1 &&& 1 ≠ 0)
    (h2 : load32 s (s.base + ((E1 &&& 0xFFFFF000) + 4 * ((v >>> 12) &&& 0x3FF))) = some e)
    (hp2 : e &&& 1 ≠ 0) :
    vm_translate s pt v access user
        = some (if (user = false ∨ e &&& 0x20 ≠ 0) ∧
                    (match access with
                      | VM_EXEC => e &&& 0x10
                      | VM_READ => e &&& 0x4
                      | VM_WRITE => e &&& 0x8) ≠ 0
                then ⟨VM_OK, (e &&& 0xFFFFF000) ||| (v &&& 0xFFF)⟩
                else ⟨VM_BAD_PERM, 0⟩) ∧
      (e &&& 0xFFFFF000) + (v &&& 0xFFF) = (e &&& 0xFFFFF000) ||| (v &&& 0xFFF) ∧
      ((e &&& 0xFFFFF000) ||| (v &&& 0xFFF)) &&& 0xFFF = v &&& 0xFFF ∧
      ((e &&& 0xFFFFF000) ||| (v &&& 0xFFF)) &&& 0xFFFFF000 = e &&& 0xFFFFF000 := by
  have he := load32_lt h2
  have hsum : (e &&& 0xFFFFF000) + (v &&& 0xFFF) = (e &&& 0xFFFFF000) ||| (v &&& 0xFFF) := by
    rw [and_frame_mask e he, and_offset_mask]
    exact frame_add_eq_or _ _ (Nat.mod_lt _ (by decide))
  have hlt : (e &&& 0xFFFFF000) + (v &&& 0xFFF) < 2 ^ 32 := by
    rw [and_frame_mask e he, and_offset_mask]; omega
  refine ⟨?_, hsum, ?_, ?_⟩
  · rw [vm_translate_walk s pt v E1 access user hn hb hstart h1, if_neg hp1,
      secondLevelEntry_ptr s E1 v hb (load32_inBounds h2), h2, Option.some_bind, if_neg hp2,
      getOffset_eq, W32, Nat.mod_eq_of_lt hlt, hsum]
    cases user <;> by_cases h5 : e &&& 0x20 = 0 <;> cases access <;> simp [h5] <;>
      split <;> simp_all
  · rw [← hsum, and_offset_mask, and_offset_mask, and_frame_mask e he]; omega
  · rw [← hsum, and_frame_mask _ hlt, and_frame_mask e he, and_offset_mask]; omega

/-- C6 at `mappedState`: a user read of `0x00403ABC` gives `VM_OK` with `0x3ABC`. -/
theorem vm_translate_permission_witness :
    vm_translate mappedState 0x1000 0x00403ABC VM_READ true = some ⟨VM_OK, 0x3ABC⟩ :=
  (vm_translate_permission mappedState 0x1000 0x00403ABC 0x2001 0x302F VM_READ true
    (by decide) (by decide) (by decide) (by decide) (by decide) (by decide) (by decide)).1.trans
    (by decide)

/-- C7. When the first-level entry for `v` has its present bit clear, or is present while
the second-level entry at `(E1 & 0xFFFFF000) + 4 * ((v >> 12) & 0x3FF)` is not allocated
(bit 1 clear) in a memory whose present second-level entries are allocated,
`vm_translate(pt, v, access, user)` returns `VM_BAD_ADDR` for every access type and user
flag. -/
theorem vm_translate_absent (s : VM) (pt v E1 : Nat) (access : access_type_t) (user : Bool)
    (hn : s.numPhys ≤ 1048576) (hb : s.base + 4096 * s.numPhys ≤ 2 ^ 64)
    (hstart : get_vmStart s = some s.base)
    (h1 : load32 s (s.base + (pt + 4 * ((v >>> 22) &&& 0x3FF))) = some E1)
    (h : E1 &&& 1 = 0 ∨
      (E1 &&& 1 ≠ 0 ∧ ∃ e,
        load32 s (s.base + ((E1 &&& 0xFFFFF000) + 4 * ((v >>> 12) &&& 0x3FF))) = some e ∧
        (e &&& 1 ≠ 0 → e &&& 2 ≠ 0) ∧ e &&& 2 = 0)) :
    vm_translate s pt v access user = some ⟨VM_BAD_ADDR, 0⟩ := by
  rw [vm_translate_walk s pt v E1 access user hn hb hstart h1]
  rcases h with h0 | ⟨hp1, e, h2, himp, ha⟩
  · rw [if_pos h0]
  · have hp2 : e &&& 1 = 0 := by
      by_contra hne
      exact himp hne ha
    rw [if_neg hp1, secondLevelEntry_ptr s E1 v hb (load32_inBounds h2), h2, Option.some_bind,
      if_pos hp2]

/-- C7 at `mappedState`: the page of `0x00404000` has a present first-level entry and a
second-level entry that is zero. -/
theorem vm_translate_absent_witness :
    vm_translate mappedState 0x1000 0x00404000 VM_WRITE false = some ⟨VM_BAD_ADDR, 0⟩ :=
  vm_translate_absent mappedState 0x1000 0x00404000 0x2001 VM_WRITE false
    (by decide) (by decide) (by decide) (by decide)
    (Or.inr ⟨by decide, 0, by decide, by decide, by decide⟩)

/-- C8. With 258 frames and address spaces 0 to 254 created, `vm_map_page(0x1000, 0, ...)`
returns `VM_OK` (the second-level table is frame 256, and the entry is written over the low
half of `metaData->vmStart`, which becomes `0x7f001244102F`); the same call again does not
return `VM_DUPLICATE`: it reads its first-level entry outside the buffer and has no
result. -/
theorem s8_second_map_no_duplicate :
    s8_map.map (fun r => r.1) = some VM_OK ∧
    s8_map.map (fun r => get_vmStart r.2) = some (some 0x7f001244102F) ∧
    s8_map.map (fun r => (vm_map_page r.2 0x1000 0 true false true true).map fun q => q.1)
      = some none := by
  obtain ⟨s, hinit, hbase, hsp⟩ := vm_init_spawned hostBase 258 0 0 (fun _ => 0)
    (by decide) (by decide) (by decide) (by decide)
  obtain ⟨s1, hspawn, hb1, hsp1⟩ := spawn_spawned 258 255 s hsp (by decide) (by decide)
  obtain ⟨s2, hm1, hvs, hm2⟩ := spawned_map_twice s1 (hb1.trans hbase) hsp1
  have h8 : s8_map = some (VM_OK, s2) := by
    unfold s8_map s8_spaces
    rw [hinit]
    simp only [Option.some_bind, id, hspawn, hm1]
  rw [h8]
  simp only [Option.map_some', hvs, hm2, Option.map_none', and_self]

/-- C9, refuted as stated. With 4 frames and two address spaces one frame (offset `0x3000`)
is free and the first-level entry for `0x00403000` is zero; `vm_map_page` returns
`VM_OUT_OF_MEM`, and afterwards the free list is empty and the first-level entry is
`0x03000003`: the frame taken for the second-level table is not given back. -/
theorem s9_out_of_mem_keeps_table :
    s9_spaces.map (fun s => (get_freePageHeader s, load32 s (hostBase + 0x1004)))
      = some (some (hostBase + 0x3000), some 0) ∧
    s9_map.map (fun r => r.1) = some VM_OUT_OF_MEM ∧
    s9_map.map (fun r => (get_freePageHeader r.2, load32 r.2 (hostBase + 0x1004)))
      = some (some 0, some 0x03000003) := by
  decide

/-- C9, amended. A `vm_map_page(pt, v, ...)` that returns `VM_OUT_OF_MEM` leaves the instance
state as it was whenever the first-level entry for `v` was present on entry or the free list
was empty on entry. -/
theorem vm_map_page_out_of_mem_unchanged (s : VM) (pt v E1 : Nat)
    (user exec write read : Bool)
    (hn : s.numPhys ≤ 1048576) (hb : s.base + 4096 * s.numPhys ≤ 2 ^ 64)
    (hstart : get_vmStart s = some s.base)
    (h1 : load32 s (s.base + (pt + 4 * ((v >>> 22) &&& 0x3FF))) = some E1)
    (hcase : E1 &&& 1 ≠ 0 ∨ get_freePageHeader s = some 0)
    (h : (vm_map_page s pt v user exec write read).map (fun r => r.1) = some VM_OUT_OF_MEM) :
    vm_map_page s pt v user exec write read = some (VM_OUT_OF_MEM, s) := by
  have hp := firstLevelEntry_ptr s pt v hn hb (load32_inBounds h1)
  unfold vm_map_page at h ⊢
  simp only [hstart, Option.bind_eq_bind, Option.some_bind, hp, h1] at h ⊢
  by_cases hpres : E1 &&& 1 = 0
  · have hh : get_freePageHeader s = some 0 := by
      rcases hcase with hc | hc
      · exact absurd hpres hc
      · exact hc
    have hw : mapWalk s (s.base + (pt + 4 * ((v >>> 22) &&& 0x3FF))) E1 = some none := by
      unfold mapWalk
      rw [if_pos hpres, hh]
      rfl
    rw [hw]
    rfl
  · have hw : mapWalk s (s.base + (pt + 4 * ((v >>> 22) &&& 0x3FF))) E1 = some (some s) := by
      unfold mapWalk
      rw [if_neg hpres]
    simp only [hw, Option.some_bind, hstart, h1] at h ⊢
    exact mapInstall_out_of_mem _ _ _ _ _ _ h

/-- C9 amended, at `s9_state`: after the failed attempt of the scenario the first-level
entry is present and the free list is empty; mapping `0x00404000` returns `VM_OUT_OF_MEM`
and the state stays. -/
theorem vm_map_page_out_of_mem_unchanged_witness :
    vm_map_page s9_state 0x1000 0x00404000 true true true true
      = some (VM_OUT_OF_MEM, s9_state) :=
  vm_map_page_out_of_mem_unchanged s9_state 0x1000 0x00404000 0x03000003 true true true true
    (by decide) (by decide) (by decide) (by decide) (Or.inl (by decide)) (by decide)

/-- C10. In scenario S1 the `vm_unmap_page(pt, 0x00403000)` that follows the successful
`vm_map_page(pt, 0x00403000, ...)` does not return `VM_OK`: it reads its second-level entry
outside the buffer and has no result. -/
theorem s1_unmap_no_result :
    s1_map.map (fun r => r.1) = some VM_OK ∧
    s1_map.map (fun r => (vm_unmap_page r.2 0x1000 0x00403000).map (fun q => q.1))
      = some none := by
  decide

set_option maxRecDepth 100000 in
/-- C11. In `entryOneState` the second-level entry for `v = 0x00404000` (index 4, at
`0x2010`) is zero and only entry 1 (at `0x2004`) is mapped; `vm_unmap_page(0x1000, v)` does
not return `VM_BAD_ADDR`: it reads the entry at byte `0x2000 + 4`, returns `VM_OK`, clears
entry 1 and puts its frame `0x3000` (and then the table `0x2000`) on the free list. -/
theorem unmap_other_entry :
    load32 entryOneState (lowBase + 0x2000 + 4 * 4) = some 0 ∧
    load32 entryOneState (lowBase + 0x2000 + 4 * 1) = some 0x302F ∧
    get_freePageHeader entryOneState = some 0 ∧
    (vm_unmap_page entryOneState 0x1000 0x00404000).map (fun r => r.1) = some VM_OK ∧
    (vm_unmap_page entryOneState 0x1000 0x00404000).map
        (fun r => load32 r.2 (lowBase + 0x2000 + 4 * 1)) = some (some 0) ∧
    (vm_unmap_page entryOneState 0x1000 0x00404000).map (fun r => freeList r.2)
      = some (some [lowBase + 0x2000, lowBase + 0x3000]) := by
  decide!

set_option maxRecDepth 100000 in
/-- C12. In `mappedState` the page of `0x00403000` is mapped (`vm_translate` returns `VM_OK`
for it), yet `vm_unmap_page(0x1000, 0x00403000)` returns `VM_BAD_ADDR`: it reads its entry
at byte `0x2000 + 3`.  In `entryZeroState` the page of `0x00400000` is the only one mapped in
its table; `vm_unmap_page` returns `VM_OK` and puts the data frame `0x3000` and the table
`0x2000` on the free list, but the first-level entry at `0x1004` is still `0x2001`, not
zero. -/
theorem unmap_mapped_page :
    vm_translate mappedState 0x1000 0x00403000 VM_READ true = some ⟨VM_OK, 0x3000⟩ ∧
    (vm_unmap_page mappedState 0x1000 0x00403000).map (fun r => r.1) = some VM_BAD_ADDR ∧
    load32 entryZeroState (lowBase + 0x2000) = some 0x302F ∧
    (vm_unmap_page entryZeroState 0x1000 0x00400000).map (fun r => r.1) = some VM_OK ∧
    (vm_unmap_page entryZeroState 0x1000 0x00400000).map (fun r => freeList r.2)
      = some (some [lowBase + 0x2000, lowBase + 0x3000]) ∧
    (vm_unmap_page entryZeroState 0x1000 0x00400000).map
        (fun r => load32 r.2 (lowBase + 0x1000 + 4 * 1)) = some (some 0x2001) := by
  decide!

/-- C16. With an empty free list `vm_new_addr_space(asid)` on an inactive `asid` returns
`VM_OUT_OF_MEM` and leaves the state as it was (so the entry of `asid` stays 0). -/
theorem vm_new_addr_space_out_of_mem (s : VM) (asid : Nat) (hb : s.base ≠ 0)
    (hasid : get_asid s asid = some 0) (hh : get_freePageHeader s = some 0) :
    vm_new_addr_space s asid = some (⟨VM_OUT_OF_MEM, 0⟩, s) := by
  unfold vm_new_addr_space
  rw [if_neg hb, hasid]
  simp only [Option.bind_eq_bind, Option.some_bind, ne_eq, not_true_eq_false, if_false, hh,
    if_true]

/-- C16 at `s9_state`, where the free list is empty and address space 2 is inactive. -/
theorem vm_new_addr_space_out_of_mem_witness :
    vm_new_addr_space s9_state 2 = some (⟨VM_OUT_OF_MEM, 0⟩, s9_state) :=
  vm_new_addr_space_out_of_mem s9_state 2 (by decide) (by decide) (by decide)

/-- C17. On an address space whose entry in the ASID table is 0, `vm_destroy_addr_space`
returns `VM_BAD_ADDR` and leaves the state as it was. -/
theorem vm_destroy_addr_space_inactive (s : VM) (asid : Nat)
    (hasid : get_asid s asid = some 0) :
    vm_destroy_addr_space s asid = some (VM_BAD_ADDR, s) := by
  unfold vm_destroy_addr_space
  rw [hasid]
  simp only [Option.bind_eq_bind, Option.some_bind, if_true]

/-- C17 at `s9_state`, where address space 5 is inactive. -/
theorem vm_destroy_addr_space_inactive_witness :
    vm_destroy_addr_space s9_state 5 = some (VM_BAD_ADDR, s9_state) :=
  vm_destroy_addr_space_inactive s9_state 5 (by decide)

/-- C18. In scenario S1, after the successful `vm_map_page`, address space 0 is active, and
`vm_destroy_addr_space(0)` does not return `VM_OK`: it decodes the first-level entry
`0x02000003` as table `0x02000000` and reads outside the buffer. -/
theorem s1_destroy_no_result :
    s1_map.map (fun r => r.1) = some VM_OK ∧
    s1_map.map (fun r => get_asid r.2 0) = some (some 0x1000) ∧
    s1_map.map (fun r => (vm_destroy_addr_space r.2 0).map fun q => q.1) = some none := by
  decide

/-- C20. In scenario S5 (4 frames, swap handle `0x55550000`, 4 swap pages) the handle is
not kept (the field `swapFile` reads `NULL`, `numSwapPages` reads 4); the first mapping
returns `VM_OK` and leaves the free list empty; the page of `0x00001000` is unmapped (its
second-level entry at `0x2004` is zero) and its first-level entry is present, yet the second
mapping returns `VM_OUT_OF_MEM`, not `VM_OK`. -/
theorem s5_no_eviction :
    s5_first.map (fun r => (load64 r.2 (hostBase + off_swapFile),
        load32 r.2 (hostBase + off_numSwapPages))) = some (some 0, some 4) ∧
    s5_first.map (fun r => r.1) = some VM_OK ∧
    s5_first.map (fun r => get_freePageHeader r.2) = some (some 0) ∧
    s5_first.map (fun r => load32 r.2 (hostBase + 0x1000)) = some (some 0x02000003) ∧
    s5_first.map (fun r => load32 r.2 (hostBase + 0x2000 + 4 * 1)) = some (some 0) ∧
    s5_second.map (fun r => r.1) = some VM_OUT_OF_MEM := by
  decide

set_option maxRecDepth 100000 in
/-- C13. With 65554 frames at `0x0E010000`, after `vm_new_addr_space(0)` (table `0x1000`)
and the mapping of `0x00002000` (`VM_OK`), the frame `0x1000` is not the head of the free
list (the head is frame 4), the ASID entry is `0x1000`, the first-level word is
`0x02000003` and the word at byte 2 of the frame at `0x02000000` is `0x1001`;
`vm_unmap_page(0x1000, 0x00002000)` returns `VM_OK`, and afterwards the frame `0x1000` is on
the free list: it is the head, linked to the frame at `0x02000000`, which is linked back to
it, while the ASID entry still is `0x1000`. -/
theorem s13_unmap_releases_top :
    s13_map.map (fun r => (r.1, [get_freePageHeader r.2, get_asid r.2 0,
        load32 r.2 (midBase + 0x1000), load32 r.2 (midBase + 0x02000000 + 2)]))
      = some (VM_OK, [some (midBase + 0x4000), some 0x1000, some 0x02000003, some 0x1001]) ∧
    s13_unmap.map (fun r => (r.1, [get_freePageHeader r.2, load64 r.2 (midBase + 0x1000),
        load64 r.2 (midBase + 0x02000000), get_asid r.2 0]))
      = some (VM_OK, [some (midBase + 0x1000), some (midBase + 0x02000000),
          some (midBase + 0x1000), some 0x1000]) := by
  have hinit := vm_init_eq midBase 65554 0 0 (fun _ => 0) (by decide) (by decide) (by decide)
    (by decide)
  unfold s13_unmap s13_map
  rw [hinit]
  decide!

/-- C14. For a non-null buffer and `4 <= n <= 1048576`, `vm_init` returns a handle whose
buffer is `physmem`; afterwards the head pointer names frame 1, the free list followed
through the links is the frames at `4096 * 1, ..., 4096 * (n - 1)` in ascending order (so
its length is `n - 1` and frame 0 is not on it), the link of the last frame is nil, and each
of the 512 entries of the ASID table is 0. -/
theorem vm_init_state (b n sw nsw : Nat) (mem0 : Nat → Nat) (hb : b ≠ 0) (hn4 : 4 ≤ n)
    (hn : n ≤ 1048576) (hw : b + 4096 * n ≤ 2 ^ 64) :
    ∃ s, vm_init b n mem0 sw nsw = some (some s) ∧ s.base = b ∧ s.numPhys = n ∧
      get_freePageHeader s = some (b + 4096 * 1) ∧
      freeList s = some ((List.range (n - 1)).map fun i => b + 4096 * (1 + i)) ∧
      ((List.range (n - 1)).map fun i => b + 4096 * (1 + i)).length = n - 1 ∧
      b ∉ ((List.range (n - 1)).map fun i => b + 4096 * (1 + i)) ∧
      load64 s (b + 4096 * (n - 1)) = some 0 ∧
      ∀ a, a < 512 → get_asid s a = some 0 := by
  obtain ⟨s, hinit, hbase, hsp⟩ := vm_init_spawned b n sw nsw mem0 hb (by omega) hn hw
  obtain ⟨-, hnum, -, -, -, hh, hlink, hlast, hasid, -⟩ := hsp
  rw [hbase] at hh hlink hlast
  refine ⟨s, hinit, hbase, hnum, hh, ?_, by simp, ?_, hlast, fun a ha => hasid a (by omega) ha⟩
  · unfold freeList
    rw [hh]
    simp only [Option.bind_eq_bind, Option.some_bind, hnum]
    have := freeListFrom_frames s b n (fun i h1 h2 => hlink i (by omega) h2) hlast (n - 2) 1
      (n + 1) (le_refl 1) (by omega) (by omega)
    have e : n - 2 + 1 = n - 1 := by omega
    rw [e] at this
    exact this
  · simp only [List.mem_map, List.mem_range, not_exists, not_and]
    intro i _
    omega

/-- C14 with 8 frames at `hostBase`. -/
theorem vm_init_state_witness :
    ∃ s, vm_init hostBase 8 (fun _ => 0) 0 0 = some (some s) ∧ s.base = hostBase ∧
      s.numPhys = 8 ∧ get_freePageHeader s = some (hostBase + 4096 * 1) ∧
      freeList s = some ((List.range (8 - 1)).map fun i => hostBase + 4096 * (1 + i)) ∧
      ((List.range (8 - 1)).map fun i => hostBase + 4096 * (1 + i)).length = 8 - 1 ∧
      hostBase ∉ ((List.range (8 - 1)).map fun i => hostBase + 4096 * (1 + i)) ∧
      load64 s (hostBase + 4096 * (8 - 1)) = some 0 ∧
      ∀ a, a < 512 → get_asid s a = some 0 :=
  vm_init_state hostBase 8 0 0 (fun _ => 0) (by decide) (by decide) (by decide) (by decide)

/-- C15. In a state whose `vmStart` holds the buffer address, for an inactive `asid < 512`
and a free list `h :: rest` whose head is the frame at physical address `t` (the nodes of
`rest` lying outside frame 0 and outside that frame), `vm_new_addr_space(asid)` returns
`VM_OK` with address `t`; afterwards the entry of `asid` is `t`, all 4096 bytes of the frame
are zero, the free list is `rest`, and every other entry of the ASID table is as before. -/
theorem vm_new_addr_space_success (s : VM) (asid t : Nat) (rest : List Nat)
    (hb : s.base ≠ 0) (hn : s.numPhys ≤ 1048576) (hw : s.base + 4096 * s.numPhys ≤ 2 ^ 64)
    (hstart : get_vmStart s = some s.base) (ha : asid < 512)
    (hasid : get_asid s asid = some 0)
    (hfl : freeList s = some ((s.base + t) :: rest)) (ht : 4096 ≤ t)
    (htn : t + 4096 ≤ 4096 * s.numPhys)
    (hrest : ∀ q ∈ rest, s.base + 4096 ≤ q ∧ (q + 8 ≤ s.base + t ∨ s.base + t + 4096 ≤ q)) :
    ∃ s', vm_new_addr_space s asid = some (⟨VM_OK, t⟩, s') ∧
      get_asid s' asid = some t ∧
      (∀ i, i < 4096 → load s' (s.base + t + i) 1 = some 0) ∧
      freeList s' = some rest ∧
      ∀ a, a < 512 → a ≠ asid → get_asid s' a = get_asid s a := by
  -- the head of the list and its link
  cases hh : get_freePageHeader s with
  | none => unfold freeList at hfl; rw [hh] at hfl; exact absurd hfl (by simp)
  | some h' =>
    have hfl' : freeListFrom s (s.numPhys + 1) h' = some ((s.base + t) :: rest) := by
      unfold freeList at hfl
      rw [hh] at hfl
      exact hfl
    obtain ⟨e, -, nx, fuel', hfe, hnx, hrest'⟩ := freeListFrom_cons _ _ _ _ _ hfl'
    subst e
    have hfuel : fuel' = s.numPhys := by omega
    subst hfuel
    have hnxlt := load_lt hnx
    have hinh : inBounds s (s.base + off_freePageHeader) 8 := load_inBounds hh
    have hina : inBounds s (s.base + off_asid + 4 * asid) 4 := load_inBounds hasid
    refine ⟨newSpaceState s asid t nx,
      vm_new_addr_space_ok s asid t nx hb hn hw hstart ha hasid hh ht htn hnx, ?_, ?_, ?_, ?_⟩
    · unfold get_asid newSpaceState
      simp only [load32, upd_base]
      rw [load_upd_other _ _ _ _ _ _ (by simp) (by simp [off_asid]; omega),
        load_upd_same _ _ _ _ (by simpa using hina), Nat.mod_eq_of_lt (by omega)]
    · intro i hi
      unfold newSpaceState
      exact load_upd_zero_inside _ _ _ _ _ (by simp) (by simp [inBounds]; omega) (by omega)
        (by omega)
    · have hhead : get_freePageHeader (newSpaceState s asid t nx) = some nx := by
        unfold get_freePageHeader newSpaceState
        simp only [load64, upd_base]
        rw [load_upd_other _ _ _ _ _ _ (by simp) (by simp [off_freePageHeader]; omega),
          load_upd_other _ _ _ _ _ _ (by simp; omega)
            (by simp [off_freePageHeader, off_asid]; omega),
          load_upd_other _ _ _ _ _ _ (by simp) (by simp [off_freePageHeader]; omega),
          load_upd_same _ _ _ _ hinh, Nat.mod_eq_of_lt hnxlt]
      unfold freeList
      rw [hhead]
      simp only [Option.bind_eq_bind, Option.some_bind, newSpaceState_numPhys]
      apply freeListFrom_succ
      apply freeListFrom_congr s _ _ _ _ hrest'
      intro q hq
      obtain ⟨h1, h2⟩ := hrest q hq
      exact load_newSpaceState_other s asid t nx q 8 (by simp [off_freePageHeader]; omega)
        (by omega) (by simp [off_asid]; omega)
    · intro a ha' hne
      unfold get_asid
      simp only [load32, newSpaceState_base]
      exact load_newSpaceState_other s asid t nx _ 4
        (by simp [off_freePageHeader, off_asid]; omega) (by simp [off_asid]; omega)
        (by omega)

/-- C15 directly after `vm_init` with 8 frames: `vm_new_addr_space(0)` returns `0x1000`. -/
theorem vm_new_addr_space_success_witness :
    ∃ s', vm_new_addr_space s1_state 0 = some (⟨VM_OK, 0x1000⟩, s') ∧
      get_asid s' 0 = some 0x1000 ∧
      (∀ i, i < 4096 → load s' (s1_state.base + 0x1000 + i) 1 = some 0) ∧
      freeList s' = some [hostBase + 0x2000, hostBase + 0x3000, hostBase + 0x4000,
        hostBase + 0x5000, hostBase + 0x6000, hostBase + 0x7000] ∧
      ∀ a, a < 512 → a ≠ 0 → get_asid s' a = get_asid s1_state a :=
  vm_new_addr_space_success s1_state 0 0x1000 [hostBase + 0x2000, hostBase + 0x3000,
    hostBase + 0x4000, hostBase + 0x5000, hostBase + 0x6000, hostBase + 0x7000]
    (by decide) (by decide) (by decide) (by decide) (by decide) (by decide) (by decide)
    (by decide) (by decide) (by decide)

set_option maxRecDepth 100000 in
/-- C19. With 16400 frames at `0x7f0512340000`, after `vm_new_addr_space(0)` and the
mappings of `0x00000000` and `0x00400000` (both `VM_OK`), address space 0 is active with
table `0x1000`, whose entries 0 and 1 are present and name the tables `0x02000000` and
`0x04000000`; entry 1 of each is the present word `0x7f05`, so two distinct present
second-level entries carry the frame address `0x7000`, and `vm_translate` sends the kernel
reads of `0x00001ABC` and `0x00401ABC` to the same physical address `0x7ABC`. -/
theorem s19_shared_frame :
    s19_map.map (fun r => (r.1, get_asid r.2 0)) = some (VM_OK, some 0x1000) ∧
    s19_map.map (fun r => (load32 r.2 (highBase + 0x1000 + 4 * 0),
        load32 r.2 (highBase + 0x1000 + 4 * 1))) = some (some 0x02000003, some 0x04000003) ∧
    0x02000003 &&& 0xFFFFF000 = 0x02000000 ∧ 0x04000003 &&& 0xFFFFF000 = 0x04000000 ∧
    s19_map.map (fun r => (load32 r.2 (highBase + 0x02000000 + 4 * 1),
        load32 r.2 (highBase + 0x04000000 + 4 * 1))) = some (some 0x7f05, some 0x7f05) ∧
    0x7f05 &&& 1 = 1 ∧ 0x7f05 &&& 0xFFFFF000 = 0x7000 ∧
    s19_map.map (fun r => (vm_translate r.2 0x1000 0x00001ABC VM_READ false,
        vm_translate r.2 0x1000 0x00401ABC VM_READ false))
      = some (some ⟨VM_OK, 0x7ABC⟩, some ⟨VM_OK, 0x7ABC⟩) := by
  have hinit := vm_init_eq highBase 16400 0 0 (fun _ => 0) (by decide) (by decide) (by decide)
    (by decide)
  unfold s19_map
  rw [hinit]
  decide!

/-- C21. With 8 frames at `0x7f0000000000` on a buffer filled with the byte `0xAA`, after
`vm_new_addr_space(0)` the call `vm_map_page(0x1000, 0, ...)` returns `VM_OK`; the
first-level word `0x02000003` locates the new table at `0x2000` (line 373), whose entry 0
is the new present entry `0x302F` naming the frame `0x3000`, which has left the free list;
the bytes at offsets 8 and 4095 of that frame are `0xAA`, not zero. -/
theorem s21_data_frame_not_zeroed :
    s21_map.map (fun r => r.1) = some VM_OK ∧
    s21_map.map (fun r => load32 r.2 (wideBase + 0x1000)) = some (some 0x02000003) ∧
    0x02000003 >>> 12 = 0x2000 ∧
    s21_map.map (fun r => load32 r.2 (wideBase + 0x2000)) = some (some 0x302F) ∧
    0x302F &&& 1 = 1 ∧ 0x302F &&& 0xFFFFF000 = 0x3000 ∧
    s21_map.map (fun r => freeList r.2) = some (some [wideBase + 0x4000, wideBase + 0x5000,
      wideBase + 0x6000, wideBase + 0x7000]) ∧
    s21_map.map (fun r => load r.2 (wideBase + 0x3000 + 8) 1) = some (some 0xAA) ∧
    s21_map.map (fun r => load r.2 (wideBase + 0x3000 + 4095) 1) = some (some 0xAA) := by
  decide

/-- C22. On an address space whose entry in the ASID table is not 0, `vm_new_addr_space`
returns `VM_DUPLICATE` with address 0 and leaves the state as it was (so the free list, the
entry and the table it names are as before). -/
theorem vm_new_addr_space_duplicate (s : VM) (asid a : Nat)
    (hasid : get_asid s asid = some a) (ha : a ≠ 0) :
    vm_new_addr_space s asid = some (⟨VM_DUPLICATE, 0⟩, s) := by
  unfold vm_new_addr_space
  by_cases hb : s.base = 0
  · rw [if_pos hb]
  · rw [if_neg hb, hasid]
    simp only [Option.bind_eq_bind, Option.some_bind]
    rw [if_pos ha]

/-- C22 at `s9_state`, where address space 1 is active with its table at `0x2000`. -/
theorem vm_new_addr_space_duplicate_witness :
    vm_new_addr_space s9_state 1 = some (⟨VM_DUPLICATE, 0⟩, s9_state) :=
  vm_new_addr_space_duplicate s9_state 1 0x2000 (by decide) (by decide)

/-- C23. In a state whose buffer is at a page-aligned host address and whose `vmStart`
holds that address, for an inactive `asid < 512` and a free list `h :: rest` whose head is
the frame at the page-aligned physical address `t` (the nodes of `rest` lying outside frame
0 and outside that frame): `vm_new_addr_space(asid)` returns `VM_OK` with address `t`, the
`vm_destroy_addr_space(asid)` that follows returns `VM_OK`, and afterwards every entry of
the ASID table and the free list are as they were at the start, so `vm_new_addr_space(asid)`
returns `VM_OK` with the same address `t` again. -/
theorem new_destroy_round_trip (s : VM) (asid t : Nat) (rest : List Nat)
    (hb : s.base ≠ 0) (hal : s.base % 4096 = 0) (hn : s.numPhys ≤ 1048576)
    (hw : s.base + 4096 * s.numPhys ≤ 2 ^ 64)
    (hstart : get_vmStart s = some s.base) (ha : asid < 512)
    (hasid : get_asid s asid = some 0)
    (hfl : freeList s = some ((s.base + t) :: rest)) (ht : 4096 ≤ t) (hta : t % 4096 = 0)
    (htn : t + 4096 ≤ 4096 * s.numPhys)
    (hrest : ∀ q ∈ rest, s.base + 4096 ≤ q ∧ (q + 8 ≤ s.base + t ∨ s.base + t + 4096 ≤ q)) :
    ∃ s1 s2 s3, vm_new_addr_space s asid = some (⟨VM_OK, t⟩, s1) ∧
      vm_destroy_addr_space s1 asid = some (VM_OK, s2) ∧
      (∀ a, a < 512 → get_asid s2 a = get_asid s a) ∧
      freeList s2 = freeList s ∧
      vm_new_addr_space s2 asid = some (⟨VM_OK, t⟩, s3) := by
  cases hh : get_freePageHeader s with
  | none => unfold freeList at hfl; rw [hh] at hfl; exact absurd hfl (by simp)
  | some h' =>
    have hfl' : freeListFrom s (s.numPhys + 1) h' = some ((s.base + t) :: rest) := by
      unfold freeList at hfl
      rw [hh] at hfl
      exact hfl
    obtain ⟨e, -, nx, fuel', hfe, hnx, hrest'⟩ := freeListFrom_cons _ _ _ _ _ hfl'
    subst e
    have hfuel : fuel' = s.numPhys := by omega
    subst hfuel
    have hnxlt := load_lt hnx
    have hinh : inBounds s (s.base + off_freePageHeader) 8 := load_inBounds hh
    have hina : inBounds s (s.base + off_asid + 4 * asid) 4 := load_inBounds hasid
    -- after the first call
    have hasid1 : get_asid (newSpaceState s asid t nx) asid = some t := by
      unfold get_asid newSpaceState
      simp only [load32, upd_base]
      rw [load_upd_other _ _ _ _ _ _ (by simp) (by simp [off_asid]; omega),
        load_upd_same _ _ _ _ (by simpa using hina), Nat.mod_eq_of_lt (by omega)]
    have hhead1 : get_freePageHeader (newSpaceState s asid t nx) = some nx := by
      unfold get_freePageHeader newSpaceState
      simp only [load64, upd_base]
      rw [load_upd_other _ _ _ _ _ _ (by simp) (by simp [off_freePageHeader]; omega),
        load_upd_other _ _ _ _ _ _ (by simp; omega)
          (by simp [off_freePageHeader, off_asid]; omega),
        load_upd_other _ _ _ _ _ _ (by simp) (by simp [off_freePageHeader]; omega),
        load_upd_same _ _ _ _ hinh, Nat.mod_eq_of_lt hnxlt]
    have htable : ∀ i, i < 1024 →
        (load32 (newSpaceState s asid t nx) ((newSpaceState s asid t nx).base + t + 4 * i)).map
          (fun e => e &&& 1) = some 0 := by
      intro i hi
      simp only [load32, newSpaceState_base]
      unfold newSpaceState
      rw [load_upd_zero_inside _ _ _ _ _ (by simp) (by simp [inBounds]; omega) (by omega)
        (by omega)]
      rfl
    have hdestroy := vm_destroy_addr_space_empty (newSpaceState s asid t nx) asid t nx
      (by simpa using hw) hasid1 ht (by simpa using htn) (by simp; omega) hhead1 htable
    simp only [newSpaceState_base] at hdestroy
    -- after the second call
    have hb2 : (roundTripState s asid t nx).base = s.base := rfl
    have hn2 : (roundTripState s asid t nx).numPhys = s.numPhys := rfl
    have hhead2 : get_freePageHeader (roundTripState s asid t nx) = some (s.base + t) := by
      unfold get_freePageHeader
      rw [hb2]
      unfold roundTripState
      simp only [load64]
      rw [load_upd_other _ _ _ _ _ _ (by simp; omega)
          (by simp [off_freePageHeader, off_asid]; omega),
        load_upd_same _ _ _ _ (by simpa using hinh), Nat.mod_eq_of_lt (by omega)]
    have hlink2 : load64 (roundTripState s asid t nx) (s.base + t) = some nx := by
      unfold roundTripState
      simp only [load64]
      rw [load_upd_other _ _ _ _ _ _ (by simp; omega) (by simp [off_asid]; omega),
        load_upd_other _ _ _ _ _ _ (by simp) (by simp [off_freePageHeader]; omega),
        load_upd_same _ _ _ _ (by simp [inBounds]; omega), Nat.mod_eq_of_lt hnxlt]
    have hasid2 : get_asid (roundTripState s asid t nx) asid = some 0 := by
      unfold get_asid
      rw [hb2]
      unfold roundTripState
      simp only [load32]
      rw [load_upd_same _ _ _ _ (by simpa using hina)]
      rfl
    have hstart2 : get_vmStart (roundTripState s asid t nx) = some s.base := by
      unfold get_vmStart
      rw [hb2]
      simp only [load64]
      rw [load_roundTripState_other s asid t nx _ 8 (by simp [off_vmStart, off_freePageHeader])
        (by simp [off_vmStart]; omega) (by simp [off_vmStart, off_asid]; omega)]
      exact hstart
    refine ⟨newSpaceState s asid t nx, roundTripState s asid t nx,
      newSpaceState (roundTripState s asid t nx) asid t nx,
      vm_new_addr_space_ok s asid t nx hb hn hw hstart ha hasid hh ht htn hnx, hdestroy, ?_, ?_,
      ?_⟩
    · intro a ha'
      by_cases hae : a = asid
      · rw [hae, hasid2, hasid]
      · unfold get_asid
        rw [hb2]
        simp only [load32]
        exact load_roundTripState_other s asid t nx _ 4
          (by simp [off_freePageHeader, off_asid]; omega) (by simp [off_asid]; omega)
          (by omega)
    · rw [hfl]
      unfold freeList
      rw [hhead2, hn2]
      simp only [Option.bind_eq_bind, Option.some_bind]
      unfold freeListFrom
      rw [if_neg (by omega), hlink2]
      simp only [Option.bind_eq_bind, Option.some_bind]
      rw [freeListFrom_congr s _ _ _ _ hrest' (by
        intro q hq
        obtain ⟨h1, h2⟩ := hrest q hq
        exact load_roundTripState_other s asid t nx q 8 (by simp [off_freePageHeader]; omega)
          (by omega) (by simp [off_asid]; omega))]
      rfl
    · have h3 := vm_new_addr_space_ok (roundTripState s asid t nx) asid t nx
      rw [hb2, hn2] at h3
      exact h3 hb hn hw hstart2 ha hasid2 hhead2 ht htn hlink2

/-- C23 directly after `vm_init` with 8 frames at `hostBase`, for address space 3: the frame
at `0x1000` is taken and released again. -/
theorem new_destroy_round_trip_witness :
    ∃ s1 s2 s3, vm_new_addr_space s1_state 3 = some (⟨VM_OK, 0x1000⟩, s1) ∧
      vm_destroy_addr_space s1 3 = some (VM_OK, s2) ∧
      (∀ a, a < 512 → get_asid s2 a = get_asid s1_state a) ∧
      freeList s2 = freeList s1_state ∧
      vm_new_addr_space s2 3 = some (⟨VM_OK, 0x1000⟩, s3) :=
  new_destroy_round_trip s1_state 3 0x1000 [hostBase + 0x2000, hostBase + 0x3000,
    hostBase + 0x4000, hostBase + 0x5000, hostBase + 0x6000, hostBase + 0x7000]
    (by decide) (by decide) (by decide) (by decide) (by decide) (by decide) (by decide)
    (by decide) (by decide) (by decide) (by decide) (by decide)

end VmAlloc
